import Mathlib

/-!
# ADS1015 / ADS1115 driver (`libads1115.cpp`): shallow embedding and verified properties

The driver talks to the chip through the POSIX calls `write`, `read`, `usleep`
and `close` on the descriptor `_i2cdev`.  These calls are modelled as events
appended to a chronological trace; the bytes that `read` leaves in the
caller's buffer are taken from a stream supplied by the environment.

Machine integers are natural numbers (or integers for `int16_t`) with the
conversions of the C++ source written out: `% 256` where a value is converted
to `uint8_t`, `% 65536` where it is converted to `uint16_t`.

The header `libads1115.h` is not part of the sources.  Every constant it
defines is a field of `Header`, so the driver functions are parametric in the
header; `datasheet` instantiates the fields with the register layout of the
chip.
-/

namespace LibAds1115

/-! ## Declarations of the header -/

/-- Modelled from the spec: the gain enumeration `adsGain_t` of the absent
header `libads1115.h`.  The spec gives it eight enumerated values, one for each
3-bit gain-select code, listed from the widest to the narrowest input range;
`code` is the position in that list. -/
structure adsGain_t where
  code : Fin 8
deriving DecidableEq, Repr

/-- Modelled from the spec: `GAIN_TWOTHIRDS` is the widest range (±6.144V),
the first entry of the gain table. -/
def GAIN_TWOTHIRDS : adsGain_t := ⟨0⟩

/-- The constants that `libads1115.cpp` takes from `libads1115.h`, as
parameters of the embedding.  `gainValue` is the integer value of each
enumerator of `adsGain_t`. -/
structure Header where
  ADS1015_CONVERSIONDELAY : Nat
  ADS1115_CONVERSIONDELAY : Nat
  ADS1015_REG_POINTER_CONVERT : Nat
  ADS1015_REG_POINTER_CONFIG : Nat
  ADS1015_REG_POINTER_HITHRESH : Nat
  ADS1015_REG_CONFIG_OS_SINGLE : Nat
  ADS1015_REG_CONFIG_MUX_DIFF_0_1 : Nat
  ADS1015_REG_CONFIG_MUX_DIFF_2_3 : Nat
  ADS1015_REG_CONFIG_MUX_SINGLE_0 : Nat
  ADS1015_REG_CONFIG_MUX_SINGLE_1 : Nat
  ADS1015_REG_CONFIG_MUX_SINGLE_2 : Nat
  ADS1015_REG_CONFIG_MUX_SINGLE_3 : Nat
  ADS1015_REG_CONFIG_MODE_CONTIN : Nat
  ADS1015_REG_CONFIG_MODE_SINGLE : Nat
  ADS1015_REG_CONFIG_DR_1600SPS : Nat
  ADS1015_REG_CONFIG_CMODE_TRAD : Nat
  ADS1015_REG_CONFIG_CPOL_ACTVLOW : Nat
  ADS1015_REG_CONFIG_CLAT_NONLAT : Nat
  ADS1015_REG_CONFIG_CLAT_LATCH : Nat
  ADS1015_REG_CONFIG_CQUE_1CONV : Nat
  ADS1015_REG_CONFIG_CQUE_NONE : Nat
  gainValue : adsGain_t → Nat

/-! ## The bus -/

/-- One call of the driver into the operating system. -/
inductive BusEvent where
  /-- `write(fd, &x, 1)`: one byte written to the bus -/
  | write (fd : Int) (byte : Nat)
  /-- `read(fd, buf, count)`: `count` bytes requested from the bus -/
  | read (fd : Int) (count : Nat)
  /-- `usleep(us)` -/
  | usleep (us : Nat)
  /-- `close(fd)` -/
  | close (fd : Int)
  /-- `open(I2C_FILE, O_RDWR)` -/
  | openBus
  /-- `ioctl(fd, I2C_SLAVE, address)` -/
  | ioctlSlave (fd : Int) (address : Nat)
deriving DecidableEq, Repr

/-- The world outside the driver: the calls made so far, oldest first, and the
bytes that the coming `read` calls will leave in the buffer (`rx 0` is the next
one). -/
structure Bus where
  trace : List BusEvent
  rx : Nat → Nat

/-- A bus with no call made yet that will deliver the bytes of `bytes` and
zeros after them. -/
def Bus.feed (bytes : List Nat) : Bus :=
  { trace := [], rx := fun i => bytes.getD i 0 }

/-- `usleep(us)`. -/
def usleep (us : Nat) (bus : Bus) : Bus :=
  { bus with trace := bus.trace ++ [BusEvent.usleep us] }

/-- `(int16_t)x` for a 16-bit unsigned `x`. -/
def toInt16 (x : Nat) : Int :=
  if x % 65536 < 32768 then ((x % 65536 : Nat) : Int) else ((x % 65536 : Nat) : Int) - 65536

/-! ## The device -/

/-- The data members of class `ads1015`. -/
structure ads1015 where
  m_i2cAddress : Nat
  m_conversionDelay : Nat
  m_bitShift : Nat
  m_gain : adsGain_t
  _i2cdev : Int
deriving DecidableEq, Repr

namespace ads1015

/-- `ads1015::i2cwrite(uint8_t x)`. -/
def i2cwrite (d : ads1015) (x : Nat) (bus : Bus) : Bus :=
  { bus with trace := bus.trace ++ [BusEvent.write d._i2cdev x] }

/-- `ads1015::writeRegister(uint8_t i2cAddress, uint8_t reg, uint16_t value)`. -/
def writeRegister (d : ads1015) (_i2cAddress reg value : Nat) (bus : Bus) : Bus :=
  let bus := d.i2cwrite reg bus
  let bus := usleep 10 bus
  let bus := d.i2cwrite ((value >>> 8) % 256) bus
  d.i2cwrite ((value &&& 0xFF) % 256) bus

/-- `ads1015::readRegister(uint8_t i2cAddress, uint8_t reg)`: the two bytes
left in `buf` by `read` are the next two bytes of the stream. -/
def readRegister (H : Header) (d : ads1015) (_i2cAddress reg : Nat) (bus : Bus) : Nat × Bus :=
  let bus := d.i2cwrite (H.ADS1015_REG_POINTER_CONVERT % 256) bus
  let bus := usleep 10 bus
  let bus := d.i2cwrite reg bus
  let buf0 := bus.rx 0 % 256
  let buf1 := bus.rx 1 % 256
  let bus : Bus := { trace := bus.trace ++ [BusEvent.read d._i2cdev 2], rx := fun i => bus.rx (i + 2) }
  (((buf0 <<< 8) ||| buf1) % 65536, bus)

/-- `ads1015::ads1015(uint8_t i2cAddress)`.  The member `_i2cdev` is not
initialised by the constructor; `fd0` is the indeterminate value it holds. -/
def ctor (H : Header) (i2cAddress : Nat) (fd0 : Int) : ads1015 :=
  { m_i2cAddress := i2cAddress
    m_conversionDelay := H.ADS1015_CONVERSIONDELAY
    m_bitShift := 4
    m_gain := GAIN_TWOTHIRDS
    _i2cdev := fd0 }

/-- The body of `ads1015::~ads1015()`. -/
def dtor (d : ads1015) (bus : Bus) : Bus :=
  { bus with trace := bus.trace ++ [BusEvent.close d._i2cdev] }

/-- `ads1015::begin()`; `fd` is the value returned by `open`.  The two
`perror` diagnostics go to the standard error stream, not to the bus. -/
def begin (d : ads1015) (fd : Int) (bus : Bus) : ads1015 × Bus :=
  let bus : Bus := { bus with trace := bus.trace ++ [BusEvent.openBus] }
  let d := { d with _i2cdev := fd }
  let bus : Bus := { bus with trace := bus.trace ++ [BusEvent.ioctlSlave d._i2cdev d.m_i2cAddress] }
  (d, bus)

/-- `ads1015::setGain(adsGain_t gain)`. -/
def setGain (d : ads1015) (gain : adsGain_t) (bus : Bus) : ads1015 × Bus :=
  ({ d with m_gain := gain }, bus)

/-- `ads1015::getGain()`. -/
def getGain (d : ads1015) (bus : Bus) : adsGain_t × ads1015 × Bus :=
  (d.m_gain, d, bus)

/-- The value of the local `config` of `readADC_SingleEnded` when it is passed
to `writeRegister` (lines 154-182). -/
def config_SingleEnded (H : Header) (d : ads1015) (channel : Nat) : Nat :=
  let config := (H.ADS1015_REG_CONFIG_CQUE_NONE |||
                 H.ADS1015_REG_CONFIG_CLAT_NONLAT |||
                 H.ADS1015_REG_CONFIG_CPOL_ACTVLOW |||
                 H.ADS1015_REG_CONFIG_CMODE_TRAD |||
                 H.ADS1015_REG_CONFIG_DR_1600SPS |||
                 H.ADS1015_REG_CONFIG_MODE_SINGLE) % 65536
  let config := (config ||| H.gainValue d.m_gain) % 65536
  let config :=
    match channel with
    | 0 => (config ||| H.ADS1015_REG_CONFIG_MUX_SINGLE_0) % 65536
    | 1 => (config ||| H.ADS1015_REG_CONFIG_MUX_SINGLE_1) % 65536
    | 2 => (config ||| H.ADS1015_REG_CONFIG_MUX_SINGLE_2) % 65536
    | 3 => (config ||| H.ADS1015_REG_CONFIG_MUX_SINGLE_3) % 65536
    | _ => config
  (config ||| H.ADS1015_REG_CONFIG_OS_SINGLE) % 65536

/-- `ads1015::readADC_SingleEnded(uint8_t channel)`. -/
def readADC_SingleEnded (H : Header) (d : ads1015) (channel : Nat) (bus : Bus) :
    Nat × ads1015 × Bus :=
  if channel > 3 then (0, d, bus)
  else
    let config := config_SingleEnded H d channel
    let bus := d.writeRegister d.m_i2cAddress (H.ADS1015_REG_POINTER_CONFIG % 256) config bus
    let bus := usleep (d.m_conversionDelay * 1000) bus
    let r := readRegister H d d.m_i2cAddress (H.ADS1015_REG_POINTER_CONVERT % 256) bus
    ((r.1 >>> d.m_bitShift) % 65536, d, r.2)

/-- The value of the local `config` of `readADC_Differential_0_1` when it is
passed to `writeRegister` (lines 205-219). -/
def config_Differential_0_1 (H : Header) (d : ads1015) : Nat :=
  let config := (H.ADS1015_REG_CONFIG_CQUE_NONE |||
                 H.ADS1015_REG_CONFIG_CLAT_NONLAT |||
                 H.ADS1015_REG_CONFIG_CPOL_ACTVLOW |||
                 H.ADS1015_REG_CONFIG_CMODE_TRAD |||
                 H.ADS1015_REG_CONFIG_DR_1600SPS |||
                 H.ADS1015_REG_CONFIG_MODE_SINGLE) % 65536
  let config := (config ||| H.gainValue d.m_gain) % 65536
  let config := (config ||| H.ADS1015_REG_CONFIG_MUX_DIFF_0_1) % 65536
  (config ||| H.ADS1015_REG_CONFIG_OS_SINGLE) % 65536

/-- `ads1015::readADC_Differential_0_1()`. -/
def readADC_Differential_0_1 (H : Header) (d : ads1015) (bus : Bus) : Int × ads1015 × Bus :=
  let config := config_Differential_0_1 H d
  let bus := d.writeRegister d.m_i2cAddress (H.ADS1015_REG_POINTER_CONFIG % 256) config bus
  let bus := usleep (d.m_conversionDelay * 1000) bus
  let r := readRegister H d d.m_i2cAddress (H.ADS1015_REG_POINTER_CONVERT % 256) bus
  let res := (r.1 >>> d.m_bitShift) % 65536
  if d.m_bitShift = 0 then (toInt16 res, d, r.2)
  else
    let res := if res > 0x07FF then (res ||| 0xF000) % 65536 else res
    (toInt16 res, d, r.2)

/-- The value of the local `config` of `readADC_Differential_2_3` when it is
passed to `writeRegister` (lines 256-270). -/
def config_Differential_2_3 (H : Header) (d : ads1015) : Nat :=
  let config := (H.ADS1015_REG_CONFIG_CQUE_NONE |||
                 H.ADS1015_REG_CONFIG_CLAT_NONLAT |||
                 H.ADS1015_REG_CONFIG_CPOL_ACTVLOW |||
                 H.ADS1015_REG_CONFIG_CMODE_TRAD |||
                 H.ADS1015_REG_CONFIG_DR_1600SPS |||
                 H.ADS1015_REG_CONFIG_MODE_SINGLE) % 65536
  let config := (config ||| H.gainValue d.m_gain) % 65536
  let config := (config ||| H.ADS1015_REG_CONFIG_MUX_DIFF_2_3) % 65536
  (config ||| H.ADS1015_REG_CONFIG_OS_SINGLE) % 65536

/-- `ads1015::readADC_Differential_2_3()`. -/
def readADC_Differential_2_3 (H : Header) (d : ads1015) (bus : Bus) : Int × ads1015 × Bus :=
  let config := config_Differential_2_3 H d
  let bus := d.writeRegister d.m_i2cAddress (H.ADS1015_REG_POINTER_CONFIG % 256) config bus
  let bus := usleep (d.m_conversionDelay * 1000) bus
  let r := readRegister H d d.m_i2cAddress (H.ADS1015_REG_POINTER_CONVERT % 256) bus
  let res := (r.1 >>> d.m_bitShift) % 65536
  if d.m_bitShift = 0 then (toInt16 res, d, r.2)
  else
    let res := if res > 0x07FF then (res ||| 0xF000) % 65536 else res
    (toInt16 res, d, r.2)

/-- The value of the local `config` of `startComparator_SingleEnded` when it is
passed to `writeRegister` (lines 309-335). -/
def config_Comparator (H : Header) (d : ads1015) (channel : Nat) : Nat :=
  let config := (H.ADS1015_REG_CONFIG_CQUE_1CONV |||
                 H.ADS1015_REG_CONFIG_CLAT_LATCH |||
                 H.ADS1015_REG_CONFIG_CPOL_ACTVLOW |||
                 H.ADS1015_REG_CONFIG_CMODE_TRAD |||
                 H.ADS1015_REG_CONFIG_DR_1600SPS |||
                 H.ADS1015_REG_CONFIG_MODE_CONTIN |||
                 H.ADS1015_REG_CONFIG_MODE_CONTIN) % 65536
  let config := (config ||| H.gainValue d.m_gain) % 65536
  match channel with
  | 0 => (config ||| H.ADS1015_REG_CONFIG_MUX_SINGLE_0) % 65536
  | 1 => (config ||| H.ADS1015_REG_CONFIG_MUX_SINGLE_1) % 65536
  | 2 => (config ||| H.ADS1015_REG_CONFIG_MUX_SINGLE_2) % 65536
  | 3 => (config ||| H.ADS1015_REG_CONFIG_MUX_SINGLE_3) % 65536
  | _ => config

/-- `ads1015::startComparator_SingleEnded(uint8_t channel, int16_t threshold)`.
`threshold << m_bitShift` is the integer `threshold * 2 ^ m_bitShift`; passing
it as the `uint16_t` argument of `writeRegister` reduces it modulo `2 ^ 16`. -/
def startComparator_SingleEnded (H : Header) (d : ads1015) (channel : Nat) (threshold : Int)
    (bus : Bus) : ads1015 × Bus :=
  let config := config_Comparator H d channel
  let bus := d.writeRegister d.m_i2cAddress (H.ADS1015_REG_POINTER_HITHRESH % 256)
    ((threshold * 2 ^ d.m_bitShift) % 65536).toNat bus
  let bus := d.writeRegister d.m_i2cAddress (H.ADS1015_REG_POINTER_CONFIG % 256) config bus
  (d, bus)

/-- `ads1015::getLastConversionResults()`. -/
def getLastConversionResults (H : Header) (d : ads1015) (bus : Bus) : Int × ads1015 × Bus :=
  let bus := usleep (d.m_conversionDelay * 1000) bus
  let r := readRegister H d d.m_i2cAddress (H.ADS1015_REG_POINTER_CONVERT % 256) bus
  let res := (r.1 >>> d.m_bitShift) % 65536
  if d.m_bitShift = 0 then (toInt16 res, d, r.2)
  else
    let res := if res > 0x07FF then (res ||| 0xF000) % 65536 else res
    (toInt16 res, d, r.2)

/-- Destruction of an object of class `ads1015`: its destructor body runs. -/
def destroy (d : ads1015) (bus : Bus) : Bus :=
  d.dtor bus

end ads1015

/-- Modelled from the spec: the declaration of class `ads1115` is in the absent
header `libads1115.h`.  The spec describes the two chip variants as a class
hierarchy specialisation that differs in bit shift and settle time only, and
the constructor and destructor of `ads1115` use the members of `ads1015`, so
`ads1115` is a class derived from `ads1015` with no data member of its own. -/
structure ads1115 extends ads1015
deriving DecidableEq, Repr

namespace ads1115

/-- `ads1115::ads1115(uint8_t i2cAddress)`.  The body assigns every member that
the constructor of the base class assigned; `_i2cdev` stays uninitialised and
`fd0` is the indeterminate value it holds. -/
def ctor (H : Header) (i2cAddress : Nat) (fd0 : Int) : ads1115 :=
  { m_i2cAddress := i2cAddress
    m_conversionDelay := H.ADS1115_CONVERSIONDELAY
    m_bitShift := 0
    m_gain := GAIN_TWOTHIRDS
    _i2cdev := fd0 }

/-- The body of `ads1115::~ads1115()`. -/
def dtor (d : ads1115) (bus : Bus) : Bus :=
  { bus with trace := bus.trace ++ [BusEvent.close d._i2cdev] }

/-- Destruction of an object of class `ads1115`: the body of its own
destructor runs, then the destructor of its base class `ads1015`. -/
def destroy (d : ads1115) (bus : Bus) : Bus :=
  d.toads1015.dtor (d.dtor bus)

end ads1115

/-- Modelled from the spec: the values of the constants of the absent header
`libads1115.h`.  The config word is laid out, from bit 15 down, as
start(1) | mux(3) | gain(3) | mode(1) | rate(3) | comparator mode(1) |
comparator polarity(1) | comparator latch(1) | comparator queue(2), and the four
registers are addressed by the pointers 0 (conversion), 1 (config),
2 (low threshold) and 3 (high threshold); the values inside each field are
those of the chip data sheet.  The gain enumerators are the eight codes of the
gain field. -/
def datasheet : Header :=
  { ADS1015_CONVERSIONDELAY := 1
    ADS1115_CONVERSIONDELAY := 8
    ADS1015_REG_POINTER_CONVERT := 0x00
    ADS1015_REG_POINTER_CONFIG := 0x01
    ADS1015_REG_POINTER_HITHRESH := 0x03
    ADS1015_REG_CONFIG_OS_SINGLE := 0x8000
    ADS1015_REG_CONFIG_MUX_DIFF_0_1 := 0x0000
    ADS1015_REG_CONFIG_MUX_DIFF_2_3 := 0x3000
    ADS1015_REG_CONFIG_MUX_SINGLE_0 := 0x4000
    ADS1015_REG_CONFIG_MUX_SINGLE_1 := 0x5000
    ADS1015_REG_CONFIG_MUX_SINGLE_2 := 0x6000
    ADS1015_REG_CONFIG_MUX_SINGLE_3 := 0x7000
    ADS1015_REG_CONFIG_MODE_CONTIN := 0x0000
    ADS1015_REG_CONFIG_MODE_SINGLE := 0x0100
    ADS1015_REG_CONFIG_DR_1600SPS := 0x0080
    ADS1015_REG_CONFIG_CMODE_TRAD := 0x0000
    ADS1015_REG_CONFIG_CPOL_ACTVLOW := 0x0000
    ADS1015_REG_CONFIG_CLAT_NONLAT := 0x0000
    ADS1015_REG_CONFIG_CLAT_LATCH := 0x0004
    ADS1015_REG_CONFIG_CQUE_1CONV := 0x0000
    ADS1015_REG_CONFIG_CQUE_NONE := 0x0003
    gainValue := fun g => g.code.val <<< 9 }

/-! ## Reading a trace -/

/-- The bytes written to the bus, in order. -/
def bytesWritten : List BusEvent → List Nat
  | [] => []
  | BusEvent.write _ b :: es => b :: bytesWritten es
  | _ :: es => bytesWritten es

/-- The number of bytes requested from the bus. -/
def bytesRead : List BusEvent → Nat
  | [] => 0
  | BusEvent.read _ n :: es => n + bytesRead es
  | _ :: es => bytesRead es

/-- The number of `close` calls on the descriptor `fd`. -/
def closeCount (fd : Int) : List BusEvent → Nat
  | [] => 0
  | BusEvent.close f :: es => (if f = fd then 1 else 0) + closeCount fd es
  | _ :: es => closeCount fd es

/-- The events of one `writeRegister(reg, value)` on descriptor `fd`. -/
def writeRegisterEvents (fd : Int) (reg value : Nat) : List BusEvent :=
  [BusEvent.write fd reg, BusEvent.usleep 10,
   BusEvent.write fd ((value >>> 8) % 256), BusEvent.write fd ((value &&& 0xFF) % 256)]

/-- The events of one `readRegister(reg)` on descriptor `fd`. -/
def readRegisterEvents (H : Header) (fd : Int) (reg : Nat) : List BusEvent :=
  [BusEvent.write fd (H.ADS1015_REG_POINTER_CONVERT % 256), BusEvent.usleep 10,
   BusEvent.write fd reg, BusEvent.read fd 2]

/-- The 16-bit value that the next `readRegister` returns on `bus`: the next
two bytes of the stream, high byte first. -/
def Bus.raw (bus : Bus) : Nat :=
  (((bus.rx 0 % 256) <<< 8) ||| (bus.rx 1 % 256)) % 65536

/-- The signed decoding of lines 228-243 (and 279-294, 358-373) as one
function of the raw register value and the bit shift. -/
def decodeSigned (bitShift raw : Nat) : Int :=
  let res := (raw >>> bitShift) % 65536
  if bitShift = 0 then toInt16 res
  else
    let res := if res > 0x07FF then (res ||| 0xF000) % 65536 else res
    toInt16 res


/-! ## The layout of the config word -/

/-- Modelled from the spec: the start bit of a config word, bit 15 of the
layout start(1) | mux(3) | gain(3) | mode(1) | rate(3) | comparator(5). -/
def startBit (w : Nat) : Nat := (w >>> 15) &&& 1

/-- Modelled from the spec: the multiplexer field of a config word, bits
14..12. -/
def muxField (w : Nat) : Nat := (w >>> 12) &&& 7

/-- Modelled from the spec: the gain field of a config word, bits 11..9. -/
def gainField (w : Nat) : Nat := (w >>> 9) &&& 7

/-- Modelled from the spec: the mode bit of a config word, bit 8 (1 is
single-shot, 0 is continuous). -/
def modeBit (w : Nat) : Nat := (w >>> 8) &&& 1

/-- Modelled from the spec: the rate field of a config word, bits 7..5. -/
def rateField (w : Nat) : Nat := (w >>> 5) &&& 7

/-- Modelled from the spec: the comparator fields of a config word (mode,
polarity, latch, queue), bits 4..0. -/
def comparatorField (w : Nat) : Nat := w &&& 0x1F

/-- Modelled from the spec: the multiplexer selections of the driver, a
single-ended channel 0 to 3 or one of the two fixed differential pairs. -/
inductive MuxSelection where
  | single (channel : Fin 4)
  | diff_0_1
  | diff_2_3
deriving DecidableEq, Repr

/-- The config word that the read operation of a multiplexer selection writes:
`readADC_SingleEnded(channel)`, `readADC_Differential_0_1()` or
`readADC_Differential_2_3()`. -/
def MuxSelection.config (H : Header) (d : ads1015) : MuxSelection → Nat
  | MuxSelection.single channel => ads1015.config_SingleEnded H d channel.val
  | MuxSelection.diff_0_1 => ads1015.config_Differential_0_1 H d
  | MuxSelection.diff_2_3 => ads1015.config_Differential_2_3 H d

/-- Modelled from the spec: the multiplexer pattern of each selection at the
data sheet values, `0b100 + c` for the single-ended channel `c`, `0b000` and
`0b011` for the differential pairs 0-1 and 2-3. -/
def MuxSelection.pattern : MuxSelection → Nat
  | MuxSelection.single channel => 4 + channel.val
  | MuxSelection.diff_0_1 => 0
  | MuxSelection.diff_2_3 => 3

/-- Modelled from the spec: decoding of a multiplexer pattern at the data sheet
values, `0b000` and `0b011` for the differential pairs 0-1 and 2-3 and
`0b100 + c` for the single-ended channel `c`; the two other patterns select
pairs that this driver never requests. -/
def decodeMux (pattern : Nat) : Option MuxSelection :=
  match pattern with
  | 0 => some MuxSelection.diff_0_1
  | 3 => some MuxSelection.diff_2_3
  | 4 => some (MuxSelection.single 0)
  | 5 => some (MuxSelection.single 1)
  | 6 => some (MuxSelection.single 2)
  | 7 => some (MuxSelection.single 3)
  | _ => none

/-- Modelled from the spec: decoding of the gain field of a config word into
the enumerated gain. -/
def decodeGain (w : Nat) : adsGain_t :=
  ⟨⟨gainField w % 8, Nat.mod_lt _ (by decide)⟩⟩

/-- Modelled from the spec: the comparator-mode bit of a config word, bit 4
(0 is the traditional comparator). -/
def cmodeBit (w : Nat) : Nat := (w >>> 4) &&& 1

/-- Modelled from the spec: the comparator-polarity bit of a config word, bit 3
(0 is active low). -/
def polarityBit (w : Nat) : Nat := (w >>> 3) &&& 1

/-- Modelled from the spec: the comparator-latch bit of a config word, bit 2
(1 is latching). -/
def latchBit (w : Nat) : Nat := (w >>> 2) &&& 1

/-- Modelled from the spec: the comparator-queue field of a config word, bits
1..0 (`0b11` disables the comparator, `0b00` asserts after one conversion). -/
def queueField (w : Nat) : Nat := w &&& 3

/-! ## Sequences of operations -/

/-- The operations that a caller can apply to a constructed device, with their
arguments. -/
inductive Op where
  | setGain (gain : adsGain_t)
  | getGain
  | readADC_SingleEnded (channel : Nat)
  | readADC_Differential_0_1
  | readADC_Differential_2_3
  | startComparator_SingleEnded (channel : Nat) (threshold : Int)
  | getLastConversionResults
deriving DecidableEq, Repr

/-- The effect of one operation on the device and on the bus (the value that
the operation returns is dropped). -/
def Op.run (H : Header) : Op → ads1015 × Bus → ads1015 × Bus
  | Op.setGain gain, (d, bus) => d.setGain gain bus
  | Op.getGain, (d, bus) => (d.getGain bus).2
  | Op.readADC_SingleEnded channel, (d, bus) => (ads1015.readADC_SingleEnded H d channel bus).2
  | Op.readADC_Differential_0_1, (d, bus) => (ads1015.readADC_Differential_0_1 H d bus).2
  | Op.readADC_Differential_2_3, (d, bus) => (ads1015.readADC_Differential_2_3 H d bus).2
  | Op.startComparator_SingleEnded channel threshold, (d, bus) =>
      ads1015.startComparator_SingleEnded H d channel threshold bus
  | Op.getLastConversionResults, (d, bus) => (ads1015.getLastConversionResults H d bus).2

/-- The effect of a sequence of operations, applied from left to right. -/
def runAll (H : Header) (ops : List Op) (s : ads1015 × Bus) : ads1015 × Bus :=
  ops.foldl (fun s op => op.run H s) s

/-- Construction of an `ads1015` object as a step on the world: the
constructor makes no call, so the bus is handed back as it was given. -/
def ads1015.construct (H : Header) (i2cAddress : Nat) (fd0 : Int) (bus : Bus) : ads1015 × Bus :=
  (ads1015.ctor H i2cAddress fd0, bus)

/-- Construction of an `ads1115` object as a step on the world: the
constructor makes no call, so the bus is handed back as it was given. -/
def ads1115.construct (H : Header) (i2cAddress : Nat) (fd0 : Int) (bus : Bus) : ads1115 × Bus :=
  (ads1115.ctor H i2cAddress fd0, bus)

/-- The events of one conversion: the config word `config` written to the
config register, the settle wait, and the conversion register read back
(lines 185-192, 222-228 and 273-279). -/
def conversionEvents (H : Header) (d : ads1015) (config : Nat) : List BusEvent :=
  writeRegisterEvents d._i2cdev (H.ADS1015_REG_POINTER_CONFIG % 256) config
    ++ [BusEvent.usleep (d.m_conversionDelay * 1000)]
    ++ readRegisterEvents H d._i2cdev (H.ADS1015_REG_POINTER_CONVERT % 256)

/-! ## Auxiliary lemmas -/

theorem shiftLeft_or_bytes (r : Nat) (hr : r < 65536) :
    (((r / 256 % 256) <<< 8) ||| (r % 256 % 256)) % 65536 = r := by
  rw [Nat.shiftLeft_eq, Nat.mul_comm, ← Nat.mul_add_lt_is_or (by omega)]
  omega

theorem or_F000 (s : Nat) (hs : s < 4096) : s ||| 0xF000 = s + 0xF000 := by
  have h1 : 2 ^ 12 * 15 + s = 2 ^ 12 * 15 ||| s := Nat.mul_add_lt_is_or (by omega) 15
  have h2 : (2 : Nat) ^ 12 * 15 = 61440 := by norm_num
  rw [h2] at h1
  rw [Nat.or_comm, ← h1, Nat.add_comm]

/-- A bus whose next two bytes are the high and the low byte of `r` makes the
next `readRegister` return `r`. -/
theorem Bus.raw_of_bytes (bus : Bus) (r : Nat) (hr : r < 65536)
    (h0 : bus.rx 0 = r / 256) (h1 : bus.rx 1 = r % 256) : bus.raw = r := by
  unfold Bus.raw
  rw [h0, h1]
  exact shiftLeft_or_bytes r hr

theorem Bus.raw_lt (bus : Bus) : bus.raw < 65536 := by
  unfold Bus.raw
  exact Nat.mod_lt _ (by norm_num)

theorem writeRegister_trace (d : ads1015) (a reg value : Nat) (bus : Bus) :
    (d.writeRegister a reg value bus).trace
      = bus.trace ++ writeRegisterEvents d._i2cdev reg value := by
  simp [ads1015.writeRegister, ads1015.i2cwrite, usleep, writeRegisterEvents]

theorem writeRegister_rx (d : ads1015) (a reg value : Nat) (bus : Bus) :
    (d.writeRegister a reg value bus).rx = bus.rx := rfl

theorem usleep_trace (us : Nat) (bus : Bus) :
    (usleep us bus).trace = bus.trace ++ [BusEvent.usleep us] := rfl

theorem usleep_rx (us : Nat) (bus : Bus) : (usleep us bus).rx = bus.rx := rfl

theorem readRegister_val (H : Header) (d : ads1015) (a reg : Nat) (bus : Bus) :
    (ads1015.readRegister H d a reg bus).1 = bus.raw := rfl

theorem readRegister_trace (H : Header) (d : ads1015) (a reg : Nat) (bus : Bus) :
    (ads1015.readRegister H d a reg bus).2.trace
      = bus.trace ++ readRegisterEvents H d._i2cdev reg := by
  simp [ads1015.readRegister, ads1015.i2cwrite, usleep, readRegisterEvents]

theorem readRegister_rx (H : Header) (d : ads1015) (a reg : Nat) (bus : Bus) :
    (ads1015.readRegister H d a reg bus).2.rx = fun i => bus.rx (i + 2) := rfl

/-- The three signed reads return the decoding of the raw value that the bus
delivers. -/
theorem readADC_Differential_0_1_val (H : Header) (d : ads1015) (bus : Bus) :
    (ads1015.readADC_Differential_0_1 H d bus).1 = decodeSigned d.m_bitShift bus.raw := by
  unfold ads1015.readADC_Differential_0_1 decodeSigned
  by_cases h : d.m_bitShift = 0
  · simp only [h, if_true]; rfl
  · simp only [h, if_false]; rfl

theorem readADC_Differential_2_3_val (H : Header) (d : ads1015) (bus : Bus) :
    (ads1015.readADC_Differential_2_3 H d bus).1 = decodeSigned d.m_bitShift bus.raw := by
  unfold ads1015.readADC_Differential_2_3 decodeSigned
  by_cases h : d.m_bitShift = 0
  · simp only [h, if_true]; rfl
  · simp only [h, if_false]; rfl

theorem getLastConversionResults_val (H : Header) (d : ads1015) (bus : Bus) :
    (ads1015.getLastConversionResults H d bus).1 = decodeSigned d.m_bitShift bus.raw := by
  unfold ads1015.getLastConversionResults decodeSigned
  by_cases h : d.m_bitShift = 0
  · simp only [h, if_true]; rfl
  · simp only [h, if_false]; rfl

theorem toInt16_of_lt (x : Nat) (hx : x < 32768) : toInt16 x = (x : Int) := by
  unfold toInt16
  have hm : x % 65536 = x := by omega
  rw [hm, if_pos hx]

theorem toInt16_of_ge (x : Nat) (hx : 32768 ≤ x) (hx2 : x < 65536) :
    toInt16 x = (x : Int) - 65536 := by
  unfold toInt16
  have hm : x % 65536 = x := by omega
  rw [hm, if_neg (by omega)]

theorem decodeSigned_four (r : Nat) (hr : r < 65536) :
    decodeSigned 4 r
      = if r >>> 4 ≤ 0x07FF then ((r >>> 4 : Nat) : Int) else ((r >>> 4 : Nat) : Int) - 4096 := by
  have hs : r >>> 4 = r / 16 := by rw [Nat.shiftRight_eq_div_pow]
  have hlt : r / 16 < 4096 := by omega
  have hm : r / 16 % 65536 = r / 16 := by omega
  unfold decodeSigned
  rw [hs, if_neg (by decide)]
  simp only [hm]
  by_cases h : r / 16 ≤ 0x07FF
  · rw [if_neg (by omega), if_pos h]
    exact toInt16_of_lt _ (by omega)
  · rw [if_pos (by omega), if_neg h, or_F000 _ hlt]
    have hm2 : (r / 16 + 0xF000) % 65536 = r / 16 + 0xF000 := by omega
    rw [hm2, toInt16_of_ge _ (by omega) (by omega)]
    push_cast
    omega

theorem decodeSigned_zero (r : Nat) (hr : r < 65536) :
    decodeSigned 0 r = if r < 0x8000 then (r : Int) else (r : Int) - 65536 := by
  have hm : r % 65536 = r := by omega
  unfold decodeSigned
  rw [if_pos rfl, Nat.shiftRight_zero, hm]
  by_cases h : r < 0x8000
  · rw [if_pos h]; exact toInt16_of_lt _ h
  · rw [if_neg h]; exact toInt16_of_ge _ (by omega) hr

/-! ## Verified properties -/

/-- C1: for every device state and every channel greater than 3,
`readADC_SingleEnded` returns 0, leaves the device state as it was and makes no
call on the bus (the bus, trace included, is the one it was given). -/
theorem c1_readADC_SingleEnded_invalid_channel (H : Header) (d : ads1015) (c : Nat) (bus : Bus)
    (hc : c > 3) :
    ads1015.readADC_SingleEnded H d c bus = (0, d, bus) := by
  unfold ads1015.readADC_SingleEnded
  rw [if_pos hc]

theorem c1_readADC_SingleEnded_invalid_channel_witness :
    (4 : Nat) > 3 ∧
    ads1015.readADC_SingleEnded datasheet (ads1015.ctor datasheet 0x48 3) 4 (Bus.feed [])
      = (0, ads1015.ctor datasheet 0x48 3, Bus.feed []) :=
  ⟨by decide,
   c1_readADC_SingleEnded_invalid_channel datasheet (ads1015.ctor datasheet 0x48 3) 4
     (Bus.feed []) (by decide)⟩

/-- C2: on the reduced-resolution variant (bit shift 4), when the bus delivers
the 16-bit raw value `r` (high byte first), each of the three signed reads
returns the 12-bit two's-complement value of `s = r >> 4`: `s` when
`s <= 0x07FF` and `s - 4096` otherwise, which is `s | 0xF000` read as an
`int16_t`. -/
theorem c2_signed_read_12bit (H : Header) (d : ads1015) (bus : Bus) (r : Nat)
    (hshift : d.m_bitShift = 4) (hr : r < 65536)
    (h0 : bus.rx 0 = r / 256) (h1 : bus.rx 1 = r % 256) :
    (ads1015.readADC_Differential_0_1 H d bus).1
        = (if r >>> 4 ≤ 0x07FF then ((r >>> 4 : Nat) : Int) else ((r >>> 4 : Nat) : Int) - 4096)
    ∧ (ads1015.readADC_Differential_2_3 H d bus).1
        = (if r >>> 4 ≤ 0x07FF then ((r >>> 4 : Nat) : Int) else ((r >>> 4 : Nat) : Int) - 4096)
    ∧ (ads1015.getLastConversionResults H d bus).1
        = (if r >>> 4 ≤ 0x07FF then ((r >>> 4 : Nat) : Int) else ((r >>> 4 : Nat) : Int) - 4096)
    ∧ (if r >>> 4 ≤ 0x07FF then ((r >>> 4 : Nat) : Int) else ((r >>> 4 : Nat) : Int) - 4096)
        = toInt16 (if r >>> 4 ≤ 0x07FF then r >>> 4 else (r >>> 4) ||| 0xF000) := by
  have hraw := bus.raw_of_bytes r hr h0 h1
  have hdec := decodeSigned_four r hr
  refine ⟨?_, ?_, ?_, ?_⟩
  · rw [readADC_Differential_0_1_val, hshift, hraw, hdec]
  · rw [readADC_Differential_2_3_val, hshift, hraw, hdec]
  · rw [getLastConversionResults_val, hshift, hraw, hdec]
  · have hs : r >>> 4 = r / 16 := by rw [Nat.shiftRight_eq_div_pow]
    have hlt : r / 16 < 4096 := by omega
    rw [hs]
    by_cases h : r / 16 ≤ 0x07FF
    · rw [if_pos h, if_pos h, toInt16_of_lt _ (by omega)]
    · rw [if_neg h, if_neg h, or_F000 _ hlt, toInt16_of_ge _ (by omega) (by omega)]
      push_cast
      omega

theorem c2_signed_read_12bit_witness :
    (ads1015.readADC_Differential_0_1 datasheet (ads1015.ctor datasheet 0x48 3)
        (Bus.feed [0x80, 0x00])).1 = -2048
    ∧ (ads1015.readADC_Differential_2_3 datasheet (ads1015.ctor datasheet 0x48 3)
        (Bus.feed [0x7F, 0xF0])).1 = 2047
    ∧ (ads1015.getLastConversionResults datasheet (ads1015.ctor datasheet 0x48 3)
        (Bus.feed [0x00, 0x00])).1 = 0 :=
  ⟨(c2_signed_read_12bit datasheet (ads1015.ctor datasheet 0x48 3) (Bus.feed [0x80, 0x00])
      0x8000 rfl (by decide) rfl rfl).1.trans (by decide),
   (c2_signed_read_12bit datasheet (ads1015.ctor datasheet 0x48 3) (Bus.feed [0x7F, 0xF0])
      0x7FF0 rfl (by decide) rfl rfl).2.1.trans (by decide),
   (c2_signed_read_12bit datasheet (ads1015.ctor datasheet 0x48 3) (Bus.feed [0x00, 0x00])
      0x0000 rfl (by decide) rfl rfl).2.2.1.trans (by decide)⟩

/-- C3: the constructor of `ads1115` sets the bit shift to 0, and on a device
with bit shift 0, when the bus delivers the 16-bit raw value `r`, each of the
three signed reads returns `r` read as a 16-bit two's-complement integer: `r`
when `r < 0x8000` and `r - 65536` otherwise. -/
theorem c3_signed_read_16bit (H : Header) (d : ads1015) (bus : Bus) (r : Nat)
    (hshift : d.m_bitShift = 0) (hr : r < 65536)
    (h0 : bus.rx 0 = r / 256) (h1 : bus.rx 1 = r % 256) :
    (∀ (a : Nat) (fd0 : Int), (ads1115.ctor H a fd0).m_bitShift = 0)
    ∧ (ads1015.readADC_Differential_0_1 H d bus).1
        = (if r < 0x8000 then (r : Int) else (r : Int) - 65536)
    ∧ (ads1015.readADC_Differential_2_3 H d bus).1
        = (if r < 0x8000 then (r : Int) else (r : Int) - 65536)
    ∧ (ads1015.getLastConversionResults H d bus).1
        = (if r < 0x8000 then (r : Int) else (r : Int) - 65536) := by
  have hraw := bus.raw_of_bytes r hr h0 h1
  have hdec := decodeSigned_zero r hr
  refine ⟨fun _ _ => rfl, ?_, ?_, ?_⟩
  · rw [readADC_Differential_0_1_val, hshift, hraw, hdec]
  · rw [readADC_Differential_2_3_val, hshift, hraw, hdec]
  · rw [getLastConversionResults_val, hshift, hraw, hdec]

theorem c3_signed_read_16bit_witness :
    (ads1015.readADC_Differential_0_1 datasheet (ads1115.ctor datasheet 0x48 3).toads1015
        (Bus.feed [0x80, 0x00])).1 = -32768
    ∧ (ads1015.getLastConversionResults datasheet (ads1115.ctor datasheet 0x48 3).toads1015
        (Bus.feed [0x7F, 0xFF])).1 = 32767 :=
  ⟨(c3_signed_read_16bit datasheet (ads1115.ctor datasheet 0x48 3).toads1015
      (Bus.feed [0x80, 0x00]) 0x8000 rfl (by decide) rfl rfl).2.1.trans (by decide),
   (c3_signed_read_16bit datasheet (ads1115.ctor datasheet 0x48 3).toads1015
      (Bus.feed [0x7F, 0xFF]) 0x7FFF rfl (by decide) rfl rfl).2.2.2.trans (by decide)⟩

theorem readADC_SingleEnded_val (H : Header) (d : ads1015) (c : Nat) (bus : Bus) (hc : c ≤ 3) :
    (ads1015.readADC_SingleEnded H d c bus).1 = (bus.raw >>> d.m_bitShift) % 65536 := by
  unfold ads1015.readADC_SingleEnded
  rw [if_neg (by omega)]
  rfl

/-- C4: for a valid channel (0 to 3), when the bus delivers the 16-bit raw
value `r`, `readADC_SingleEnded` returns the unsigned value `r >> m_bitShift`
with no sign extension; with bit shift 4 this is `r >> 4`, at most `0x0FFF`,
and with bit shift 0 it is `r` itself.  The result is a natural number, so it
is never negative. -/
theorem c4_readADC_SingleEnded_unsigned (H : Header) (d : ads1015) (c : Nat) (bus : Bus)
    (r : Nat) (hc : c ≤ 3) (hr : r < 65536)
    (h0 : bus.rx 0 = r / 256) (h1 : bus.rx 1 = r % 256) :
    (ads1015.readADC_SingleEnded H d c bus).1 = r >>> d.m_bitShift
    ∧ (d.m_bitShift = 4 →
        (ads1015.readADC_SingleEnded H d c bus).1 = r >>> 4
        ∧ (ads1015.readADC_SingleEnded H d c bus).1 ≤ 0x0FFF)
    ∧ (d.m_bitShift = 0 → (ads1015.readADC_SingleEnded H d c bus).1 = r)
    ∧ (0 : Int) ≤ ((ads1015.readADC_SingleEnded H d c bus).1 : Int) := by
  have hraw := bus.raw_of_bytes r hr h0 h1
  have hle : r >>> d.m_bitShift ≤ r := by
    rw [Nat.shiftRight_eq_div_pow]; exact Nat.div_le_self _ _
  have hval : (ads1015.readADC_SingleEnded H d c bus).1 = r >>> d.m_bitShift := by
    rw [readADC_SingleEnded_val H d c bus hc, hraw]
    exact Nat.mod_eq_of_lt (by omega)
  refine ⟨hval, ?_, ?_, ?_⟩
  · intro h4
    rw [hval, h4]
    refine ⟨rfl, ?_⟩
    rw [Nat.shiftRight_eq_div_pow]
    omega
  · intro h
    rw [hval, h, Nat.shiftRight_zero]
  · exact Int.natCast_nonneg _

theorem c4_readADC_SingleEnded_unsigned_witness :
    (ads1015.readADC_SingleEnded datasheet (ads1015.ctor datasheet 0x48 3) 2
        (Bus.feed [0x80, 0x00])).1 = 2048
    ∧ (ads1015.readADC_SingleEnded datasheet (ads1115.ctor datasheet 0x48 3).toads1015 2
        (Bus.feed [0x80, 0x00])).1 = 0x8000 :=
  ⟨(c4_readADC_SingleEnded_unsigned datasheet (ads1015.ctor datasheet 0x48 3) 2
      (Bus.feed [0x80, 0x00]) 0x8000 (by decide) (by decide) rfl rfl).1.trans (by decide),
   (c4_readADC_SingleEnded_unsigned datasheet (ads1115.ctor datasheet 0x48 3).toads1015 2
      (Bus.feed [0x80, 0x00]) 0x8000 (by decide) (by decide) rfl rfl).1.trans (by decide)⟩

theorem startComparator_SingleEnded_trace (H : Header) (d : ads1015) (c : Nat) (t : Int)
    (bus : Bus) :
    (ads1015.startComparator_SingleEnded H d c t bus).2.trace
      = bus.trace
        ++ (writeRegisterEvents d._i2cdev (H.ADS1015_REG_POINTER_HITHRESH % 256)
              ((t * 2 ^ d.m_bitShift) % 65536).toNat
            ++ writeRegisterEvents d._i2cdev (H.ADS1015_REG_POINTER_CONFIG % 256)
              (ads1015.config_Comparator H d c)) := by
  unfold ads1015.startComparator_SingleEnded
  simp only [writeRegister_trace, List.append_assoc]

/-- C5: for every channel and every threshold `t` (in particular every signed 16-bit
one),
`startComparator_SingleEnded` makes exactly the calls of two register writes,
first of `(t << m_bitShift) mod 2^16` to the high-threshold register and then of
the config word to the config register: six bytes are written, no byte is
read (the pending input of the bus is untouched) and there is no settle wait
of `m_conversionDelay * 1000` microseconds.  With bit shift 4, channel 0 and
threshold 100 the value written to the high-threshold register is 1600, sent
as the bytes 0x06, 0x40 after the pointer byte. -/
theorem c5_startComparator_SingleEnded_writes (H : Header) (d : ads1015) (c : Nat) (t : Int)
    (bus : Bus) :
    (ads1015.startComparator_SingleEnded H d c t bus).2.trace
      = bus.trace
        ++ (writeRegisterEvents d._i2cdev (H.ADS1015_REG_POINTER_HITHRESH % 256)
              ((t * 2 ^ d.m_bitShift) % 65536).toNat
            ++ writeRegisterEvents d._i2cdev (H.ADS1015_REG_POINTER_CONFIG % 256)
              (ads1015.config_Comparator H d c))
    ∧ (bytesWritten
        (writeRegisterEvents d._i2cdev (H.ADS1015_REG_POINTER_HITHRESH % 256)
              ((t * 2 ^ d.m_bitShift) % 65536).toNat
            ++ writeRegisterEvents d._i2cdev (H.ADS1015_REG_POINTER_CONFIG % 256)
              (ads1015.config_Comparator H d c))).length = 6
    ∧ bytesRead
        (writeRegisterEvents d._i2cdev (H.ADS1015_REG_POINTER_HITHRESH % 256)
              ((t * 2 ^ d.m_bitShift) % 65536).toNat
            ++ writeRegisterEvents d._i2cdev (H.ADS1015_REG_POINTER_CONFIG % 256)
              (ads1015.config_Comparator H d c)) = 0
    ∧ (ads1015.startComparator_SingleEnded H d c t bus).2.rx = bus.rx
    ∧ BusEvent.usleep (d.m_conversionDelay * 1000) ∉
        (writeRegisterEvents d._i2cdev (H.ADS1015_REG_POINTER_HITHRESH % 256)
              ((t * 2 ^ d.m_bitShift) % 65536).toNat
            ++ writeRegisterEvents d._i2cdev (H.ADS1015_REG_POINTER_CONFIG % 256)
              (ads1015.config_Comparator H d c))
    ∧ (d.m_bitShift = 4 →
        (((100 : Int) * 2 ^ d.m_bitShift) % 65536).toNat = 1600
        ∧ (ads1015.startComparator_SingleEnded H d 0 100 bus).2.trace
            = bus.trace
              ++ ([BusEvent.write d._i2cdev (H.ADS1015_REG_POINTER_HITHRESH % 256),
                   BusEvent.usleep 10,
                   BusEvent.write d._i2cdev 0x06,
                   BusEvent.write d._i2cdev 0x40]
                  ++ writeRegisterEvents d._i2cdev (H.ADS1015_REG_POINTER_CONFIG % 256)
                      (ads1015.config_Comparator H d 0))) := by
  refine ⟨startComparator_SingleEnded_trace H d c t bus, ?_, ?_, rfl, ?_, ?_⟩
  · simp [writeRegisterEvents, bytesWritten]
  · simp [writeRegisterEvents, bytesRead]
  · simp only [writeRegisterEvents, List.mem_append, List.mem_cons, List.mem_singleton,
      BusEvent.usleep.injEq, List.not_mem_nil, reduceCtorEq, false_or, or_false, or_self]
    omega
  · intro h4
    have hv : (((100 : Int) * 2 ^ d.m_bitShift) % 65536).toNat = 1600 := by
      rw [h4]; decide
    refine ⟨hv, ?_⟩
    rw [startComparator_SingleEnded_trace, hv]
    rfl

theorem c5_startComparator_SingleEnded_writes_witness :
    (ads1015.startComparator_SingleEnded datasheet (ads1015.ctor datasheet 0x48 3) 0 100
        (Bus.feed [])).2.trace
      = [BusEvent.write 3 0x03, BusEvent.usleep 10, BusEvent.write 3 0x06, BusEvent.write 3 0x40,
         BusEvent.write 3 0x01, BusEvent.usleep 10, BusEvent.write 3 0x40, BusEvent.write 3 0x84] :=
  (c5_startComparator_SingleEnded_writes datasheet (ads1015.ctor datasheet 0x48 3) 0 100
      (Bus.feed [])).1.trans (by decide)

theorem readADC_SingleEnded_trace (H : Header) (d : ads1015) (c : Nat) (bus : Bus)
    (hc : c ≤ 3) :
    (ads1015.readADC_SingleEnded H d c bus).2.2.trace
      = bus.trace
        ++ (writeRegisterEvents d._i2cdev (H.ADS1015_REG_POINTER_CONFIG % 256)
              (ads1015.config_SingleEnded H d c)
            ++ [BusEvent.usleep (d.m_conversionDelay * 1000)]
            ++ readRegisterEvents H d._i2cdev (H.ADS1015_REG_POINTER_CONVERT % 256)) := by
  unfold ads1015.readADC_SingleEnded
  rw [if_neg (by omega)]
  simp only [readRegister_trace, usleep_trace, writeRegister_trace, List.append_assoc]

theorem readADC_Differential_0_1_trace (H : Header) (d : ads1015) (bus : Bus) :
    (ads1015.readADC_Differential_0_1 H d bus).2.2.trace
      = bus.trace
        ++ (writeRegisterEvents d._i2cdev (H.ADS1015_REG_POINTER_CONFIG % 256)
              (ads1015.config_Differential_0_1 H d)
            ++ [BusEvent.usleep (d.m_conversionDelay * 1000)]
            ++ readRegisterEvents H d._i2cdev (H.ADS1015_REG_POINTER_CONVERT % 256)) := by
  unfold ads1015.readADC_Differential_0_1
  by_cases h : d.m_bitShift = 0
  · simp only [h, if_true, readRegister_trace, usleep_trace, writeRegister_trace,
      List.append_assoc]
  · simp only [h, if_false, readRegister_trace, usleep_trace, writeRegister_trace,
      List.append_assoc]

theorem readADC_Differential_2_3_trace (H : Header) (d : ads1015) (bus : Bus) :
    (ads1015.readADC_Differential_2_3 H d bus).2.2.trace
      = bus.trace
        ++ (writeRegisterEvents d._i2cdev (H.ADS1015_REG_POINTER_CONFIG % 256)
              (ads1015.config_Differential_2_3 H d)
            ++ [BusEvent.usleep (d.m_conversionDelay * 1000)]
            ++ readRegisterEvents H d._i2cdev (H.ADS1015_REG_POINTER_CONVERT % 256)) := by
  unfold ads1015.readADC_Differential_2_3
  by_cases h : d.m_bitShift = 0
  · simp only [h, if_true, readRegister_trace, usleep_trace, writeRegister_trace,
      List.append_assoc]
  · simp only [h, if_false, readRegister_trace, usleep_trace, writeRegister_trace,
      List.append_assoc]

/-- At the data sheet values the config word of a single-ended read is the sum
of its fields. -/
theorem config_SingleEnded_datasheet (d : ads1015) (c : Nat) (hc : c ≤ 3) :
    ads1015.config_SingleEnded datasheet d c
      = 0x8000 + (4 + c) * 0x1000 + d.m_gain.code.val * 0x200 + 0x100 + 0x80 + 0x3 := by
  have key : ∀ (g : Fin 8) (k : Fin 4),
      ads1015.config_SingleEnded datasheet ⟨0, 0, 0, ⟨g⟩, 0⟩ k.val
        = 0x8000 + (4 + k.val) * 0x1000 + g.val * 0x200 + 0x100 + 0x80 + 0x3 := by
    decide
  exact key d.m_gain.code ⟨c, by omega⟩

theorem config_Differential_0_1_datasheet (d : ads1015) :
    ads1015.config_Differential_0_1 datasheet d
      = 0x8000 + 0 * 0x1000 + d.m_gain.code.val * 0x200 + 0x100 + 0x80 + 0x3 := by
  have key : ∀ (g : Fin 8),
      ads1015.config_Differential_0_1 datasheet ⟨0, 0, 0, ⟨g⟩, 0⟩
        = 0x8000 + 0 * 0x1000 + g.val * 0x200 + 0x100 + 0x80 + 0x3 := by
    decide
  exact key d.m_gain.code

theorem config_Differential_2_3_datasheet (d : ads1015) :
    ads1015.config_Differential_2_3 datasheet d
      = 0x8000 + 3 * 0x1000 + d.m_gain.code.val * 0x200 + 0x100 + 0x80 + 0x3 := by
  have key : ∀ (g : Fin 8),
      ads1015.config_Differential_2_3 datasheet ⟨0, 0, 0, ⟨g⟩, 0⟩
        = 0x8000 + 3 * 0x1000 + g.val * 0x200 + 0x100 + 0x80 + 0x3 := by
    decide
  exact key d.m_gain.code

/-- The multiplexer field of a word that is the sum of its fields. -/
theorem muxField_sum (m g : Nat) (hm : m < 8) (hg : g < 8) :
    muxField (0x8000 + m * 0x1000 + g * 0x200 + 0x100 + 0x80 + 0x3) = m := by
  have key : ∀ (m g : Fin 8),
      muxField (0x8000 + m.val * 0x1000 + g.val * 0x200 + 0x100 + 0x80 + 0x3) = m.val := by
    decide
  exact key ⟨m, hm⟩ ⟨g, hg⟩

/-- C6: at the data sheet values of the register constants, for a channel `c`
in 0..3 and every gain, the config word that `readADC_SingleEnded(c)` writes
to the config register has the multiplexer field (bits 14..12) `0b100 + c`,
whatever the gain: the field grows with the channel number, two different
channels never share it, and it differs from the field that either
differential read writes. -/
theorem c6_single_ended_mux_field (d : ads1015) (c : Nat) (bus : Bus) (hc : c ≤ 3) :
    (ads1015.readADC_SingleEnded datasheet d c bus).2.2.trace
      = bus.trace
        ++ (writeRegisterEvents d._i2cdev 0x01 (ads1015.config_SingleEnded datasheet d c)
            ++ [BusEvent.usleep (d.m_conversionDelay * 1000)]
            ++ readRegisterEvents datasheet d._i2cdev 0x00)
    ∧ muxField (ads1015.config_SingleEnded datasheet d c) = 0b100 + c
    ∧ (∀ (e : ads1015) (k : Nat), k ≤ 3 → c < k →
        muxField (ads1015.config_SingleEnded datasheet d c)
          < muxField (ads1015.config_SingleEnded datasheet e k))
    ∧ (∀ (e : ads1015) (k : Nat), k ≤ 3 → k ≠ c →
        muxField (ads1015.config_SingleEnded datasheet e k)
          ≠ muxField (ads1015.config_SingleEnded datasheet d c))
    ∧ (∀ (e : ads1015),
        muxField (ads1015.config_Differential_0_1 datasheet e)
          ≠ muxField (ads1015.config_SingleEnded datasheet d c))
    ∧ (∀ (e : ads1015),
        muxField (ads1015.config_Differential_2_3 datasheet e)
          ≠ muxField (ads1015.config_SingleEnded datasheet d c)) := by
  have hmux : ∀ (e : ads1015) (k : Nat), k ≤ 3 →
      muxField (ads1015.config_SingleEnded datasheet e k) = 4 + k := by
    intro e k hk
    rw [config_SingleEnded_datasheet e k hk]
    exact muxField_sum (4 + k) _ (by omega) e.m_gain.code.isLt
  have h01 : ∀ e : ads1015, muxField (ads1015.config_Differential_0_1 datasheet e) = 0 := by
    intro e
    rw [config_Differential_0_1_datasheet e]
    exact muxField_sum 0 _ (by omega) e.m_gain.code.isLt
  have h23 : ∀ e : ads1015, muxField (ads1015.config_Differential_2_3 datasheet e) = 3 := by
    intro e
    rw [config_Differential_2_3_datasheet e]
    exact muxField_sum 3 _ (by omega) e.m_gain.code.isLt
  refine ⟨readADC_SingleEnded_trace datasheet d c bus hc, hmux d c hc, ?_, ?_, ?_, ?_⟩
  · intro e k hk hlt
    rw [hmux d c hc, hmux e k hk]
    omega
  · intro e k hk hne
    rw [hmux d c hc, hmux e k hk]
    omega
  · intro e
    rw [hmux d c hc, h01 e]
    omega
  · intro e
    rw [hmux d c hc, h23 e]
    omega

theorem c6_single_ended_mux_field_witness :
    muxField (ads1015.config_SingleEnded datasheet (ads1015.ctor datasheet 0x48 3) 2) = 6 :=
  (c6_single_ended_mux_field (ads1015.ctor datasheet 0x48 3) 2 (Bus.feed [])
    (by decide)).2.1

/-- The pattern of each multiplexer selection in bits 14..12 at the data
sheet values. -/
theorem MuxSelection.config_datasheet (d : ads1015) (m : MuxSelection) :
    m.config datasheet d
      = 0x8000 + m.pattern * 0x1000 + d.m_gain.code.val * 0x200 + 0x100 + 0x80 + 0x3 := by
  cases m with
  | single c => exact config_SingleEnded_datasheet d c.val (by omega)
  | diff_0_1 => exact config_Differential_0_1_datasheet d
  | diff_2_3 => exact config_Differential_2_3_datasheet d

/-- The fields of a word that is the sum of its fields. -/
theorem fields_sum (m g : Nat) (hm : m < 8) (hg : g < 8) :
    startBit (0x8000 + m * 0x1000 + g * 0x200 + 0x100 + 0x80 + 0x3) = 1
    ∧ gainField (0x8000 + m * 0x1000 + g * 0x200 + 0x100 + 0x80 + 0x3) = g
    ∧ modeBit (0x8000 + m * 0x1000 + g * 0x200 + 0x100 + 0x80 + 0x3) = 1
    ∧ rateField (0x8000 + m * 0x1000 + g * 0x200 + 0x100 + 0x80 + 0x3) = 4
    ∧ comparatorField (0x8000 + m * 0x1000 + g * 0x200 + 0x100 + 0x80 + 0x3) = 3 := by
  have key : ∀ (m g : Fin 8),
      startBit (0x8000 + m.val * 0x1000 + g.val * 0x200 + 0x100 + 0x80 + 0x3) = 1
      ∧ gainField (0x8000 + m.val * 0x1000 + g.val * 0x200 + 0x100 + 0x80 + 0x3) = g.val
      ∧ modeBit (0x8000 + m.val * 0x1000 + g.val * 0x200 + 0x100 + 0x80 + 0x3) = 1
      ∧ rateField (0x8000 + m.val * 0x1000 + g.val * 0x200 + 0x100 + 0x80 + 0x3) = 4
      ∧ comparatorField (0x8000 + m.val * 0x1000 + g.val * 0x200 + 0x100 + 0x80 + 0x3) = 3 := by
    decide
  exact key ⟨m, hm⟩ ⟨g, hg⟩

/-- C7: at the data sheet values of the register constants, for every gain and
every multiplexer selection, the config word written by the corresponding read
operation decodes back to its inputs: bits 14..12 decode to the selection,
bits 11..9 to the gain, bit 8 reads single-shot and bit 15 is set.  The word
is the sum of its fields placed at their positions, so the OR-combination of
the fields loses nothing. -/
theorem c7_config_word_round_trip (d : ads1015) (m : MuxSelection) :
    decodeMux (muxField (m.config datasheet d)) = some m
    ∧ decodeGain (m.config datasheet d) = d.m_gain
    ∧ gainField (m.config datasheet d) = d.m_gain.code.val
    ∧ modeBit (m.config datasheet d) = 1
    ∧ startBit (m.config datasheet d) = 1
    ∧ m.config datasheet d
        = startBit (m.config datasheet d) * 2 ^ 15
          + muxField (m.config datasheet d) * 2 ^ 12
          + gainField (m.config datasheet d) * 2 ^ 9
          + modeBit (m.config datasheet d) * 2 ^ 8
          + rateField (m.config datasheet d) * 2 ^ 5
          + comparatorField (m.config datasheet d)
    ∧ (∀ (bus : Bus) (c : Fin 4),
        (ads1015.readADC_SingleEnded datasheet d c.val bus).2.2.trace
          = bus.trace
            ++ (writeRegisterEvents d._i2cdev 0x01
                  ((MuxSelection.single c).config datasheet d)
                ++ [BusEvent.usleep (d.m_conversionDelay * 1000)]
                ++ readRegisterEvents datasheet d._i2cdev 0x00))
    ∧ (∀ (bus : Bus),
        (ads1015.readADC_Differential_0_1 datasheet d bus).2.2.trace
          = bus.trace
            ++ (writeRegisterEvents d._i2cdev 0x01 (MuxSelection.diff_0_1.config datasheet d)
                ++ [BusEvent.usleep (d.m_conversionDelay * 1000)]
                ++ readRegisterEvents datasheet d._i2cdev 0x00))
    ∧ (∀ (bus : Bus),
        (ads1015.readADC_Differential_2_3 datasheet d bus).2.2.trace
          = bus.trace
            ++ (writeRegisterEvents d._i2cdev 0x01 (MuxSelection.diff_2_3.config datasheet d)
                ++ [BusEvent.usleep (d.m_conversionDelay * 1000)]
                ++ readRegisterEvents datasheet d._i2cdev 0x00)) := by
  have hg : d.m_gain.code.val < 8 := d.m_gain.code.isLt
  have hw := MuxSelection.config_datasheet d m
  have hpat : m.pattern < 8 := by
    cases m with
    | single c => simp only [MuxSelection.pattern]; omega
    | diff_0_1 => simp only [MuxSelection.pattern]; omega
    | diff_2_3 => simp only [MuxSelection.pattern]; omega
  have hmux := muxField_sum _ _ hpat hg
  obtain ⟨hstart, hgain, hmode, hrate, hcomp⟩ := fields_sum _ _ hpat hg
  rw [← hw] at hmux hstart hgain hmode hrate hcomp
  refine ⟨?_, ?_, hgain, hmode, hstart, ?_, ?_, ?_, ?_⟩
  · rw [hmux]
    cases m with
    | single c =>
      have key : ∀ k : Fin 4,
          decodeMux (MuxSelection.single k).pattern = some (MuxSelection.single k) := by
        decide
      exact key c
    | diff_0_1 => rfl
    | diff_2_3 => rfl
  · unfold decodeGain
    simp only [hgain, Nat.mod_eq_of_lt hg]
  · rw [hstart, hmux, hgain, hmode, hrate, hcomp]
    rw [hw]
    norm_num
  · intro bus c
    exact readADC_SingleEnded_trace datasheet d c.val bus (by omega)
  · intro bus
    exact readADC_Differential_0_1_trace datasheet d bus
  · intro bus
    exact readADC_Differential_2_3_trace datasheet d bus

theorem testBit_or_mod (a b i : Nat) (hi : i < 16) :
    ((a ||| b) % 65536).testBit i = (a.testBit i || b.testBit i) := by
  have h : (65536 : Nat) = 2 ^ 16 := by norm_num
  rw [h, Nat.testBit_mod_two_pow, Nat.testBit_or]
  simp [hi]

/-- Every bit that is set in the integer value of the stored gain is set in
the config word of each operation. -/
theorem gain_in_config_SingleEnded (H : Header) (d : ads1015) (c i : Nat) (hi : i < 16)
    (hb : (H.gainValue d.m_gain).testBit i = true) :
    (ads1015.config_SingleEnded H d c).testBit i = true := by
  unfold ads1015.config_SingleEnded
  split <;> simp [testBit_or_mod, hi, hb]

theorem gain_in_config_Differential_0_1 (H : Header) (d : ads1015) (i : Nat) (hi : i < 16)
    (hb : (H.gainValue d.m_gain).testBit i = true) :
    (ads1015.config_Differential_0_1 H d).testBit i = true := by
  unfold ads1015.config_Differential_0_1
  simp [testBit_or_mod, hi, hb]

theorem gain_in_config_Differential_2_3 (H : Header) (d : ads1015) (i : Nat) (hi : i < 16)
    (hb : (H.gainValue d.m_gain).testBit i = true) :
    (ads1015.config_Differential_2_3 H d).testBit i = true := by
  unfold ads1015.config_Differential_2_3
  simp [testBit_or_mod, hi, hb]

theorem gain_in_config_Comparator (H : Header) (d : ads1015) (c i : Nat) (hi : i < 16)
    (hb : (H.gainValue d.m_gain).testBit i = true) :
    (ads1015.config_Comparator H d c).testBit i = true := by
  unfold ads1015.config_Comparator
  split <;> simp [testBit_or_mod, hi, hb]

/-- C8: for every device state and every gain `g`, `getGain` after `setGain(g)`
returns `g`; `setGain` leaves the bus as it was and changes no member other
than the gain, and `getGain` changes nothing.  The gain set is the one OR-ed
into the config word that the next read or comparator operation writes to the
config register: every bit (of the low 16) set in the integer value of `g` is
set in that word. -/
theorem c8_setGain_getGain (H : Header) (d : ads1015) (g : adsGain_t) (bus : Bus) :
    (ads1015.getGain (ads1015.setGain d g bus).1 (ads1015.setGain d g bus).2).1 = g
    ∧ (ads1015.getGain (ads1015.setGain d g bus).1 (ads1015.setGain d g bus).2).2
        = ads1015.setGain d g bus
    ∧ (ads1015.setGain d g bus).2 = bus
    ∧ (ads1015.setGain d g bus).1.m_i2cAddress = d.m_i2cAddress
    ∧ (ads1015.setGain d g bus).1.m_conversionDelay = d.m_conversionDelay
    ∧ (ads1015.setGain d g bus).1.m_bitShift = d.m_bitShift
    ∧ (ads1015.setGain d g bus).1._i2cdev = d._i2cdev
    ∧ (∀ (c : Nat) (b : Bus), c ≤ 3 →
        (ads1015.readADC_SingleEnded H (ads1015.setGain d g bus).1 c b).2.2.trace
          = b.trace
            ++ (writeRegisterEvents d._i2cdev (H.ADS1015_REG_POINTER_CONFIG % 256)
                  (ads1015.config_SingleEnded H (ads1015.setGain d g bus).1 c)
                ++ [BusEvent.usleep (d.m_conversionDelay * 1000)]
                ++ readRegisterEvents H d._i2cdev (H.ADS1015_REG_POINTER_CONVERT % 256)))
    ∧ (∀ (b : Bus),
        (ads1015.readADC_Differential_0_1 H (ads1015.setGain d g bus).1 b).2.2.trace
          = b.trace
            ++ (writeRegisterEvents d._i2cdev (H.ADS1015_REG_POINTER_CONFIG % 256)
                  (ads1015.config_Differential_0_1 H (ads1015.setGain d g bus).1)
                ++ [BusEvent.usleep (d.m_conversionDelay * 1000)]
                ++ readRegisterEvents H d._i2cdev (H.ADS1015_REG_POINTER_CONVERT % 256)))
    ∧ (∀ (b : Bus),
        (ads1015.readADC_Differential_2_3 H (ads1015.setGain d g bus).1 b).2.2.trace
          = b.trace
            ++ (writeRegisterEvents d._i2cdev (H.ADS1015_REG_POINTER_CONFIG % 256)
                  (ads1015.config_Differential_2_3 H (ads1015.setGain d g bus).1)
                ++ [BusEvent.usleep (d.m_conversionDelay * 1000)]
                ++ readRegisterEvents H d._i2cdev (H.ADS1015_REG_POINTER_CONVERT % 256)))
    ∧ (∀ (c : Nat) (t : Int) (b : Bus),
        (ads1015.startComparator_SingleEnded H (ads1015.setGain d g bus).1 c t b).2.trace
          = b.trace
            ++ (writeRegisterEvents d._i2cdev (H.ADS1015_REG_POINTER_HITHRESH % 256)
                  ((t * 2 ^ d.m_bitShift) % 65536).toNat
                ++ writeRegisterEvents d._i2cdev (H.ADS1015_REG_POINTER_CONFIG % 256)
                  (ads1015.config_Comparator H (ads1015.setGain d g bus).1 c)))
    ∧ (∀ (i : Nat), i < 16 → (H.gainValue g).testBit i = true →
        (∀ c : Nat,
          (ads1015.config_SingleEnded H (ads1015.setGain d g bus).1 c).testBit i = true)
        ∧ (ads1015.config_Differential_0_1 H (ads1015.setGain d g bus).1).testBit i = true
        ∧ (ads1015.config_Differential_2_3 H (ads1015.setGain d g bus).1).testBit i = true
        ∧ (∀ c : Nat,
          (ads1015.config_Comparator H (ads1015.setGain d g bus).1 c).testBit i = true)) := by
  refine ⟨rfl, rfl, rfl, rfl, rfl, rfl, rfl, ?_, ?_, ?_, ?_, ?_⟩
  · intro c b hc
    exact readADC_SingleEnded_trace H _ c b hc
  · intro b
    exact readADC_Differential_0_1_trace H _ b
  · intro b
    exact readADC_Differential_2_3_trace H _ b
  · intro c t b
    exact startComparator_SingleEnded_trace H _ c t b
  · intro i hi hb
    exact ⟨fun c => gain_in_config_SingleEnded H _ c i hi hb,
      gain_in_config_Differential_0_1 H _ i hi hb,
      gain_in_config_Differential_2_3 H _ i hi hb,
      fun c => gain_in_config_Comparator H _ c i hi hb⟩

theorem c8_setGain_getGain_witness :
    (ads1015.getGain
        (ads1015.setGain (ads1015.ctor datasheet 0x48 3) ⟨5⟩ (Bus.feed [])).1
        (ads1015.setGain (ads1015.ctor datasheet 0x48 3) ⟨5⟩ (Bus.feed [])).2).1
      = (⟨5⟩ : adsGain_t)
    ∧ (ads1015.config_SingleEnded datasheet
        (ads1015.setGain (ads1015.ctor datasheet 0x48 3) ⟨5⟩ (Bus.feed [])).1 1).testBit 11
      = true :=
  ⟨(c8_setGain_getGain datasheet (ads1015.ctor datasheet 0x48 3) ⟨5⟩ (Bus.feed [])).1,
   ((c8_setGain_getGain datasheet (ads1015.ctor datasheet 0x48 3) ⟨5⟩
      (Bus.feed [])).2.2.2.2.2.2.2.2.2.2.2 11 (by decide) (by decide)).1 1⟩

/-- C9: `writeRegister(p, v)` with a pointer byte `p` and a 16-bit value `v`
writes exactly the three bytes `p`, `v >> 8`, `v & 0xFF` in that order;
`readRegister(p)` writes the conversion-register pointer byte and then `p`,
requests two bytes and, when the bus supplies the bytes `b0` and `b1`, returns
`b0 * 256 + b1`.  Fed with the two data bytes that `writeRegister` sent for
`v`, `readRegister` returns `v`. -/
theorem c9_transport_framing (H : Header) (d : ads1015) (a p v b0 b1 : Nat) (bus : Bus)
    (hv : v < 65536) (hb0 : b0 < 256) (hb1 : b1 < 256)
    (h0 : bus.rx 0 = b0) (h1 : bus.rx 1 = b1) :
    (d.writeRegister a p v bus).trace
        = bus.trace ++ [BusEvent.write d._i2cdev p, BusEvent.usleep 10,
                        BusEvent.write d._i2cdev (v >>> 8),
                        BusEvent.write d._i2cdev (v &&& 0xFF)]
    ∧ bytesWritten [BusEvent.write d._i2cdev p, BusEvent.usleep 10,
                    BusEvent.write d._i2cdev (v >>> 8),
                    BusEvent.write d._i2cdev (v &&& 0xFF)]
        = [p, v >>> 8, v &&& 0xFF]
    ∧ v >>> 8 = v / 256 ∧ v &&& 0xFF = v % 256
    ∧ (ads1015.readRegister H d a p bus).2.trace
        = bus.trace ++ [BusEvent.write d._i2cdev (H.ADS1015_REG_POINTER_CONVERT % 256),
                        BusEvent.usleep 10, BusEvent.write d._i2cdev p,
                        BusEvent.read d._i2cdev 2]
    ∧ bytesWritten [BusEvent.write d._i2cdev (H.ADS1015_REG_POINTER_CONVERT % 256),
                    BusEvent.usleep 10, BusEvent.write d._i2cdev p,
                    BusEvent.read d._i2cdev 2]
        = [H.ADS1015_REG_POINTER_CONVERT % 256, p]
    ∧ bytesRead [BusEvent.write d._i2cdev (H.ADS1015_REG_POINTER_CONVERT % 256),
                 BusEvent.usleep 10, BusEvent.write d._i2cdev p,
                 BusEvent.read d._i2cdev 2] = 2
    ∧ (ads1015.readRegister H d a p bus).1 = b0 * 256 + b1
    ∧ (b0 = v >>> 8 → b1 = v &&& 0xFF → (ads1015.readRegister H d a p bus).1 = v) := by
  have hhi : v >>> 8 = v / 256 := by rw [Nat.shiftRight_eq_div_pow]
  have hlo : v &&& 0xFF = v % 256 := Nat.and_pow_two_sub_one_eq_mod v 8
  have hval : (ads1015.readRegister H d a p bus).1 = b0 * 256 + b1 := by
    rw [readRegister_val]
    unfold Bus.raw
    rw [h0, h1, Nat.mod_eq_of_lt hb0, Nat.mod_eq_of_lt hb1, Nat.shiftLeft_eq, Nat.mul_comm,
      ← Nat.mul_add_lt_is_or (by omega)]
    omega
  refine ⟨?_, rfl, hhi, hlo, ?_, rfl, rfl, hval, ?_⟩
  · rw [writeRegister_trace, writeRegisterEvents, hhi, hlo]
    have e1 : v / 256 % 256 = v / 256 := by omega
    have e2 : v % 256 % 256 = v % 256 := by omega
    rw [e1, e2]
  · rw [readRegister_trace, readRegisterEvents]
  · intro e0 e1
    rw [hval, e0, e1, hhi, hlo]
    omega

theorem c9_transport_framing_witness :
    ((ads1015.ctor datasheet 0x48 3).writeRegister 0x48 0x03 0x0640
        (Bus.feed [0x06, 0x40])).trace
        = [BusEvent.write 3 0x03, BusEvent.usleep 10, BusEvent.write 3 0x06,
           BusEvent.write 3 0x40]
    ∧ (ads1015.readRegister datasheet (ads1015.ctor datasheet 0x48 3) 0x48 0x03
        (Bus.feed [0x06, 0x40])).1 = 0x0640 :=
  ⟨(c9_transport_framing datasheet (ads1015.ctor datasheet 0x48 3) 0x48 0x03 0x0640 0x06 0x40
      (Bus.feed [0x06, 0x40]) (by decide) (by decide) (by decide) rfl rfl).1,
   (c9_transport_framing datasheet (ads1015.ctor datasheet 0x48 3) 0x48 0x03 0x0640 0x06 0x40
      (Bus.feed [0x06, 0x40]) (by decide) (by decide) (by decide) rfl
      rfl).2.2.2.2.2.2.2.2 rfl rfl⟩

/-- C10 (evaluation of the code): destroying an object of class `ads1115` runs
the body of `~ads1115` and then the body of `~ads1015`, and each of them calls
`close(_i2cdev)`: the descriptor is closed twice.  Destroying an object of
class `ads1015` closes it once.  For a device built at address 0x48 whose
`begin` obtained descriptor 3, the teardown of the 16-bit variant issues two
`close(3)` calls. -/
theorem c10_ads1115_teardown_closes_twice :
    (∀ (d : ads1115) (bus : Bus),
        (d.destroy bus).trace
          = bus.trace ++ [BusEvent.close d._i2cdev, BusEvent.close d._i2cdev]
        ∧ closeCount d._i2cdev [BusEvent.close d._i2cdev, BusEvent.close d._i2cdev] = 2)
    ∧ (∀ (d : ads1015) (bus : Bus),
        (d.destroy bus).trace = bus.trace ++ [BusEvent.close d._i2cdev]
        ∧ closeCount d._i2cdev [BusEvent.close d._i2cdev] = 1)
    ∧ (ads1115.destroy
          ⟨(ads1015.begin (ads1115.ctor datasheet 0x48 (-1)).toads1015 3 (Bus.feed [])).1⟩
          (ads1015.begin (ads1115.ctor datasheet 0x48 (-1)).toads1015 3 (Bus.feed [])).2).trace
        = [BusEvent.openBus, BusEvent.ioctlSlave 3 0x48, BusEvent.close 3, BusEvent.close 3]
    ∧ closeCount 3
        (ads1115.destroy
          ⟨(ads1015.begin (ads1115.ctor datasheet 0x48 (-1)).toads1015 3 (Bus.feed [])).1⟩
          (ads1015.begin (ads1115.ctor datasheet 0x48 (-1)).toads1015 3 (Bus.feed [])).2).trace
        = 2 := by
  refine ⟨?_, ?_, by decide, by decide⟩
  · intro d bus
    refine ⟨?_, ?_⟩
    · simp [ads1115.destroy, ads1115.dtor, ads1015.dtor]
    · simp [closeCount]
  · intro d bus
    refine ⟨rfl, ?_⟩
    simp [closeCount]

/-- At the data sheet values the config word of the comparator operation on a
valid channel is the sum of its fields. -/
theorem config_Comparator_datasheet (d : ads1015) (c : Nat) (hc : c ≤ 3) :
    ads1015.config_Comparator datasheet d c
      = (4 + c) * 0x1000 + d.m_gain.code.val * 0x200 + 0x80 + 0x4 := by
  have key : ∀ (g : Fin 8) (k : Fin 4),
      ads1015.config_Comparator datasheet ⟨0, 0, 0, ⟨g⟩, 0⟩ k.val
        = (4 + k.val) * 0x1000 + g.val * 0x200 + 0x80 + 0x4 := by
    decide
  exact key d.m_gain.code ⟨c, by omega⟩

/-- The fields of the comparator word and of the single-shot word with the
same multiplexer pattern and gain code. -/
theorem comparator_fields_sum (m g : Nat) (hm : m < 8) (hg : g < 8) :
    startBit (m * 0x1000 + g * 0x200 + 0x80 + 0x4) = 0
    ∧ muxField (m * 0x1000 + g * 0x200 + 0x80 + 0x4) = m
    ∧ gainField (m * 0x1000 + g * 0x200 + 0x80 + 0x4) = g
    ∧ modeBit (m * 0x1000 + g * 0x200 + 0x80 + 0x4) = 0
    ∧ rateField (m * 0x1000 + g * 0x200 + 0x80 + 0x4) = 4
    ∧ cmodeBit (m * 0x1000 + g * 0x200 + 0x80 + 0x4) = 0
    ∧ polarityBit (m * 0x1000 + g * 0x200 + 0x80 + 0x4) = 0
    ∧ latchBit (m * 0x1000 + g * 0x200 + 0x80 + 0x4) = 1
    ∧ queueField (m * 0x1000 + g * 0x200 + 0x80 + 0x4) = 0
    ∧ rateField (0x8000 + m * 0x1000 + g * 0x200 + 0x100 + 0x80 + 0x3) = 4
    ∧ cmodeBit (0x8000 + m * 0x1000 + g * 0x200 + 0x100 + 0x80 + 0x3) = 0
    ∧ polarityBit (0x8000 + m * 0x1000 + g * 0x200 + 0x100 + 0x80 + 0x3) = 0
    ∧ latchBit (0x8000 + m * 0x1000 + g * 0x200 + 0x100 + 0x80 + 0x3) = 0
    ∧ queueField (0x8000 + m * 0x1000 + g * 0x200 + 0x100 + 0x80 + 0x3) = 3
    ∧ (m * 0x1000 + g * 0x200 + 0x80 + 0x4)
        ^^^ (0x8000 + m * 0x1000 + g * 0x200 + 0x100 + 0x80 + 0x3) = 0x8107 := by
  have key : ∀ (m g : Fin 8),
      startBit (m.val * 0x1000 + g.val * 0x200 + 0x80 + 0x4) = 0
      ∧ muxField (m.val * 0x1000 + g.val * 0x200 + 0x80 + 0x4) = m.val
      ∧ gainField (m.val * 0x1000 + g.val * 0x200 + 0x80 + 0x4) = g.val
      ∧ modeBit (m.val * 0x1000 + g.val * 0x200 + 0x80 + 0x4) = 0
      ∧ rateField (m.val * 0x1000 + g.val * 0x200 + 0x80 + 0x4) = 4
      ∧ cmodeBit (m.val * 0x1000 + g.val * 0x200 + 0x80 + 0x4) = 0
      ∧ polarityBit (m.val * 0x1000 + g.val * 0x200 + 0x80 + 0x4) = 0
      ∧ latchBit (m.val * 0x1000 + g.val * 0x200 + 0x80 + 0x4) = 1
      ∧ queueField (m.val * 0x1000 + g.val * 0x200 + 0x80 + 0x4) = 0
      ∧ rateField (0x8000 + m.val * 0x1000 + g.val * 0x200 + 0x100 + 0x80 + 0x3) = 4
      ∧ cmodeBit (0x8000 + m.val * 0x1000 + g.val * 0x200 + 0x100 + 0x80 + 0x3) = 0
      ∧ polarityBit (0x8000 + m.val * 0x1000 + g.val * 0x200 + 0x100 + 0x80 + 0x3) = 0
      ∧ latchBit (0x8000 + m.val * 0x1000 + g.val * 0x200 + 0x100 + 0x80 + 0x3) = 0
      ∧ queueField (0x8000 + m.val * 0x1000 + g.val * 0x200 + 0x100 + 0x80 + 0x3) = 3
      ∧ (m.val * 0x1000 + g.val * 0x200 + 0x80 + 0x4)
          ^^^ (0x8000 + m.val * 0x1000 + g.val * 0x200 + 0x100 + 0x80 + 0x3) = 0x8107 := by
    decide
  exact key ⟨m, hm⟩ ⟨g, hg⟩

/-- C11: at the data sheet values of the register constants, for a channel `c`
in 0..3 and every gain, the config word that `startComparator_SingleEnded`
writes to the config register requests continuous mode (bit 8 clear), has the
queue field at the assert-after-one-conversion pattern and not at the disabled
pattern, has the latch bit set, the start bit 15 clear, the multiplexer
pattern of single-ended channel `c` in bits 14..12 and the gain in bits 11..9.
It differs from the word that `readADC_SingleEnded(c)` writes under the same
gain exactly in the start, mode, latch and queue fields. -/
theorem c11_comparator_config_word (d : ads1015) (c : Nat) (t : Int) (bus : Bus) (hc : c ≤ 3) :
    (ads1015.startComparator_SingleEnded datasheet d c t bus).2.trace
      = bus.trace
        ++ (writeRegisterEvents d._i2cdev 0x03 ((t * 2 ^ d.m_bitShift) % 65536).toNat
            ++ writeRegisterEvents d._i2cdev 0x01 (ads1015.config_Comparator datasheet d c))
    ∧ modeBit (ads1015.config_Comparator datasheet d c) = 0
    ∧ queueField (ads1015.config_Comparator datasheet d c)
        = queueField datasheet.ADS1015_REG_CONFIG_CQUE_1CONV
    ∧ queueField (ads1015.config_Comparator datasheet d c)
        ≠ queueField datasheet.ADS1015_REG_CONFIG_CQUE_NONE
    ∧ latchBit (ads1015.config_Comparator datasheet d c) = 1
    ∧ cmodeBit (ads1015.config_Comparator datasheet d c) = 0
    ∧ startBit (ads1015.config_Comparator datasheet d c) = 0
    ∧ muxField (ads1015.config_Comparator datasheet d c) = 0b100 + c
    ∧ gainField (ads1015.config_Comparator datasheet d c) = d.m_gain.code.val
    ∧ decodeGain (ads1015.config_Comparator datasheet d c) = d.m_gain
    ∧ muxField (ads1015.config_Comparator datasheet d c)
        = muxField (ads1015.config_SingleEnded datasheet d c)
    ∧ gainField (ads1015.config_Comparator datasheet d c)
        = gainField (ads1015.config_SingleEnded datasheet d c)
    ∧ rateField (ads1015.config_Comparator datasheet d c)
        = rateField (ads1015.config_SingleEnded datasheet d c)
    ∧ cmodeBit (ads1015.config_Comparator datasheet d c)
        = cmodeBit (ads1015.config_SingleEnded datasheet d c)
    ∧ polarityBit (ads1015.config_Comparator datasheet d c)
        = polarityBit (ads1015.config_SingleEnded datasheet d c)
    ∧ startBit (ads1015.config_Comparator datasheet d c)
        ≠ startBit (ads1015.config_SingleEnded datasheet d c)
    ∧ modeBit (ads1015.config_Comparator datasheet d c)
        ≠ modeBit (ads1015.config_SingleEnded datasheet d c)
    ∧ latchBit (ads1015.config_Comparator datasheet d c)
        ≠ latchBit (ads1015.config_SingleEnded datasheet d c)
    ∧ queueField (ads1015.config_Comparator datasheet d c)
        ≠ queueField (ads1015.config_SingleEnded datasheet d c)
    ∧ (ads1015.config_Comparator datasheet d c) ^^^ (ads1015.config_SingleEnded datasheet d c)
        = 0x8000 ||| 0x0100 ||| 0x0004 ||| 0x0003 := by
  have hg : d.m_gain.code.val < 8 := d.m_gain.code.isLt
  have hm : 4 + c < 8 := by omega
  have hW := config_Comparator_datasheet d c hc
  have hS := config_SingleEnded_datasheet d c hc
  obtain ⟨cs, cm, cg, cmo, cr, ccm, cp, cl, cq, sr, scm, sp, sl, sq, hx⟩ :=
    comparator_fields_sum (4 + c) d.m_gain.code.val hm hg
  obtain ⟨ss, sg, smo, -, -⟩ := fields_sum (4 + c) d.m_gain.code.val hm hg
  have sm := muxField_sum (4 + c) d.m_gain.code.val hm hg
  rw [← hW] at cs cm cg cmo cr ccm cp cl cq hx
  rw [← hS] at sr scm sp sl sq ss sg smo sm hx
  refine ⟨startComparator_SingleEnded_trace datasheet d c t bus, cmo, ?_, ?_, cl, ccm, cs, cm,
    cg, ?_, ?_, ?_, ?_, ?_, ?_, ?_, ?_, ?_, ?_, ?_⟩
  · rw [cq]; rfl
  · rw [cq]; decide
  · unfold decodeGain
    simp only [cg, Nat.mod_eq_of_lt hg]
  · rw [cm, sm]
  · rw [cg, sg]
  · rw [cr, sr]
  · rw [ccm, scm]
  · rw [cp, sp]
  · rw [cs, ss]; decide
  · rw [cmo, smo]; decide
  · rw [cl, sl]; decide
  · rw [cq, sq]; decide
  · rw [hx]; rfl

theorem c11_comparator_config_word_witness :
    ads1015.config_Comparator datasheet (ads1015.ctor datasheet 0x48 3) 2 = 0x6084
    ∧ (ads1015.config_Comparator datasheet (ads1015.ctor datasheet 0x48 3) 2)
        ^^^ (ads1015.config_SingleEnded datasheet (ads1015.ctor datasheet 0x48 3) 2) = 0x8107 :=
  ⟨by decide,
   (c11_comparator_config_word (ads1015.ctor datasheet 0x48 3) 2 100 (Bus.feed [])
      (by decide)).2.2.2.2.2.2.2.2.2.2.2.2.2.2.2.2.2.2.2⟩

theorem getLastConversionResults_trace (H : Header) (d : ads1015) (bus : Bus) :
    (ads1015.getLastConversionResults H d bus).2.2.trace
      = bus.trace
        ++ ([BusEvent.usleep (d.m_conversionDelay * 1000)]
            ++ readRegisterEvents H d._i2cdev (H.ADS1015_REG_POINTER_CONVERT % 256)) := by
  unfold ads1015.getLastConversionResults
  by_cases h : d.m_bitShift = 0
  · simp only [h, if_true, readRegister_trace, usleep_trace, List.append_assoc]
  · simp only [h, if_false, readRegister_trace, usleep_trace, List.append_assoc]

theorem getLastConversionResults_dev (H : Header) (d : ads1015) (bus : Bus) :
    (ads1015.getLastConversionResults H d bus).2.1 = d := by
  unfold ads1015.getLastConversionResults
  by_cases h : d.m_bitShift = 0
  · simp only [h, if_true]
  · simp only [h, if_false]

theorem getLastConversionResults_rx (H : Header) (d : ads1015) (bus : Bus) :
    (ads1015.getLastConversionResults H d bus).2.2.rx = fun i => bus.rx (i + 2) := by
  unfold ads1015.getLastConversionResults
  by_cases h : d.m_bitShift = 0
  · simp only [h, if_true]; rfl
  · simp only [h, if_false]; rfl

/-- The events of a settle wait followed by a `readRegister` contain no run of
events of the shape of a `writeRegister`. -/
theorem no_writeRegister_in_read (H : Header) (fd : Int) (us p : Nat) (fd2 : Int) (reg v : Nat) :
    ¬ (writeRegisterEvents fd2 reg v
        <:+: ([BusEvent.usleep us] ++ readRegisterEvents H fd p)) := by
  simp [writeRegisterEvents, readRegisterEvents, List.infix_cons_iff, List.cons_prefix_cons]

/-- C12: for every device state, the calls of `getLastConversionResults` are
exactly one settle wait followed by one `readRegister` of the conversion
register: the two bytes written are the conversion-register pointer, two bytes
are read, no run of calls is a `writeRegister` and no byte other than the
conversion pointer is written, so neither the config register nor a threshold
register is written.  The device state is unchanged.  The value returned is
the function `decodeSigned` of the bit shift and the raw register value, the
same one that `readADC_Differential_0_1` and `readADC_Differential_2_3`
return. -/
theorem c12_getLastConversionResults_frame (H : Header) (d : ads1015) (bus : Bus) :
    (ads1015.getLastConversionResults H d bus).2.2.trace
      = bus.trace
        ++ ([BusEvent.usleep (d.m_conversionDelay * 1000)]
            ++ readRegisterEvents H d._i2cdev (H.ADS1015_REG_POINTER_CONVERT % 256))
    ∧ bytesWritten ([BusEvent.usleep (d.m_conversionDelay * 1000)]
            ++ readRegisterEvents H d._i2cdev (H.ADS1015_REG_POINTER_CONVERT % 256))
        = [H.ADS1015_REG_POINTER_CONVERT % 256, H.ADS1015_REG_POINTER_CONVERT % 256]
    ∧ bytesRead ([BusEvent.usleep (d.m_conversionDelay * 1000)]
            ++ readRegisterEvents H d._i2cdev (H.ADS1015_REG_POINTER_CONVERT % 256)) = 2
    ∧ (∀ (fd : Int) (reg v : Nat),
        ¬ (writeRegisterEvents fd reg v
            <:+: ([BusEvent.usleep (d.m_conversionDelay * 1000)]
              ++ readRegisterEvents H d._i2cdev (H.ADS1015_REG_POINTER_CONVERT % 256))))
    ∧ (∀ p : Nat, p ≠ H.ADS1015_REG_POINTER_CONVERT % 256 →
        p ∉ bytesWritten ([BusEvent.usleep (d.m_conversionDelay * 1000)]
            ++ readRegisterEvents H d._i2cdev (H.ADS1015_REG_POINTER_CONVERT % 256)))
    ∧ (ads1015.getLastConversionResults H d bus).2.1 = d
    ∧ (ads1015.getLastConversionResults H d bus).2.2.rx = (fun i => bus.rx (i + 2))
    ∧ (ads1015.getLastConversionResults H d bus).1 = decodeSigned d.m_bitShift bus.raw
    ∧ (ads1015.readADC_Differential_0_1 H d bus).1 = decodeSigned d.m_bitShift bus.raw
    ∧ (ads1015.readADC_Differential_2_3 H d bus).1 = decodeSigned d.m_bitShift bus.raw := by
  refine ⟨getLastConversionResults_trace H d bus, rfl, rfl, ?_, ?_,
    getLastConversionResults_dev H d bus, getLastConversionResults_rx H d bus,
    getLastConversionResults_val H d bus, readADC_Differential_0_1_val H d bus,
    readADC_Differential_2_3_val H d bus⟩
  · intro fd reg v
    exact no_writeRegister_in_read H d._i2cdev _ _ fd reg v
  · intro p hp hmem
    simp only [readRegisterEvents, bytesWritten, List.cons_append, List.nil_append,
      List.mem_cons, List.not_mem_nil, or_false, or_self] at hmem
    exact hp hmem

theorem c12_getLastConversionResults_frame_witness :
    (ads1015.getLastConversionResults datasheet (ads1015.ctor datasheet 0x48 3)
        (Bus.feed [0x12, 0x30])).2.2.trace
      = [BusEvent.usleep 1000, BusEvent.write 3 0x00, BusEvent.usleep 10,
         BusEvent.write 3 0x00, BusEvent.read 3 2]
    ∧ (ads1015.getLastConversionResults datasheet (ads1015.ctor datasheet 0x48 3)
        (Bus.feed [0x12, 0x30])).1 = 0x123 :=
  ⟨(c12_getLastConversionResults_frame datasheet (ads1015.ctor datasheet 0x48 3)
      (Bus.feed [0x12, 0x30])).1,
   (c12_getLastConversionResults_frame datasheet (ads1015.ctor datasheet 0x48 3)
      (Bus.feed [0x12, 0x30])).2.2.2.2.2.2.2.1.trans (by decide)⟩

theorem readADC_SingleEnded_dev (H : Header) (d : ads1015) (c : Nat) (bus : Bus) :
    (ads1015.readADC_SingleEnded H d c bus).2.1 = d := by
  unfold ads1015.readADC_SingleEnded
  by_cases h : c > 3
  · rw [if_pos h]
  · rw [if_neg h]

theorem readADC_Differential_0_1_dev (H : Header) (d : ads1015) (bus : Bus) :
    (ads1015.readADC_Differential_0_1 H d bus).2.1 = d := by
  unfold ads1015.readADC_Differential_0_1
  by_cases h : d.m_bitShift = 0
  · simp only [h, if_true]
  · simp only [h, if_false]

theorem readADC_Differential_2_3_dev (H : Header) (d : ads1015) (bus : Bus) :
    (ads1015.readADC_Differential_2_3 H d bus).2.1 = d := by
  unfold ads1015.readADC_Differential_2_3
  by_cases h : d.m_bitShift = 0
  · simp only [h, if_true]
  · simp only [h, if_false]

/-- One operation leaves the address, the bit shift, the settle time and the
descriptor of the device as they were. -/
theorem Op.run_fixed (H : Header) (op : Op) (s : ads1015 × Bus) :
    (op.run H s).1.m_i2cAddress = s.1.m_i2cAddress
    ∧ (op.run H s).1.m_bitShift = s.1.m_bitShift
    ∧ (op.run H s).1.m_conversionDelay = s.1.m_conversionDelay
    ∧ (op.run H s).1._i2cdev = s.1._i2cdev := by
  obtain ⟨d, bus⟩ := s
  cases op with
  | setGain g => exact ⟨rfl, rfl, rfl, rfl⟩
  | getGain => exact ⟨rfl, rfl, rfl, rfl⟩
  | readADC_SingleEnded c =>
    simp only [Op.run, readADC_SingleEnded_dev, and_self]
  | readADC_Differential_0_1 =>
    simp only [Op.run, readADC_Differential_0_1_dev, and_self]
  | readADC_Differential_2_3 =>
    simp only [Op.run, readADC_Differential_2_3_dev, and_self]
  | startComparator_SingleEnded c t => exact ⟨rfl, rfl, rfl, rfl⟩
  | getLastConversionResults =>
    simp only [Op.run, getLastConversionResults_dev, and_self]

/-- An operation other than `setGain` leaves the gain as it was. -/
theorem Op.run_gain (H : Header) (op : Op) (s : ads1015 × Bus)
    (hop : ∀ g : adsGain_t, op ≠ Op.setGain g) :
    (op.run H s).1.m_gain = s.1.m_gain := by
  obtain ⟨d, bus⟩ := s
  cases op with
  | setGain g => exact absurd rfl (hop g)
  | getGain => rfl
  | readADC_SingleEnded c => simp only [Op.run, readADC_SingleEnded_dev]
  | readADC_Differential_0_1 => simp only [Op.run, readADC_Differential_0_1_dev]
  | readADC_Differential_2_3 => simp only [Op.run, readADC_Differential_2_3_dev]
  | startComparator_SingleEnded c t => rfl
  | getLastConversionResults => simp only [Op.run, getLastConversionResults_dev]

theorem runAll_fixed (H : Header) (ops : List Op) (s : ads1015 × Bus) :
    (runAll H ops s).1.m_i2cAddress = s.1.m_i2cAddress
    ∧ (runAll H ops s).1.m_bitShift = s.1.m_bitShift
    ∧ (runAll H ops s).1.m_conversionDelay = s.1.m_conversionDelay
    ∧ (runAll H ops s).1._i2cdev = s.1._i2cdev := by
  induction ops generalizing s with
  | nil => exact ⟨rfl, rfl, rfl, rfl⟩
  | cons op ops ih =>
    obtain ⟨h1, h2, h3, h4⟩ := ih (op.run H s)
    obtain ⟨k1, k2, k3, k4⟩ := Op.run_fixed H op s
    exact ⟨h1.trans k1, h2.trans k2, h3.trans k3, h4.trans k4⟩

theorem runAll_gain (H : Header) (ops : List Op) (s : ads1015 × Bus)
    (hops : ∀ op ∈ ops, ∀ g : adsGain_t, op ≠ Op.setGain g) :
    (runAll H ops s).1.m_gain = s.1.m_gain := by
  induction ops generalizing s with
  | nil => rfl
  | cons op ops ih =>
    have h1 := ih (op.run H s) (fun o ho => hops o (List.mem_cons_of_mem _ ho))
    have h2 := Op.run_gain H op s (hops op (List.mem_cons_self _ _))
    exact h1.trans h2

/-- C13: the bus address and the variant parameters are fixed at construction.
From any device state `d0` (in particular a freshly constructed one of either
variant) and after any sequence `ops` of operations, every operation `op`
leaves the stored address, bit shift and settle time as they were before it,
so they stay those of `d0` and, for a constructed device, those set by the
constructor; the gain is left as it was by every operation other than
`setGain`, and `setGain(g)` makes it `g`. -/
theorem c13_fixed_parameters (H : Header) (d0 : ads1015) (bus0 : Bus) (ops : List Op) (op : Op) :
    (op.run H (runAll H ops (d0, bus0))).1.m_i2cAddress
        = (runAll H ops (d0, bus0)).1.m_i2cAddress
    ∧ (op.run H (runAll H ops (d0, bus0))).1.m_bitShift
        = (runAll H ops (d0, bus0)).1.m_bitShift
    ∧ (op.run H (runAll H ops (d0, bus0))).1.m_conversionDelay
        = (runAll H ops (d0, bus0)).1.m_conversionDelay
    ∧ ((∀ g : adsGain_t, op ≠ Op.setGain g) →
        (op.run H (runAll H ops (d0, bus0))).1.m_gain = (runAll H ops (d0, bus0)).1.m_gain)
    ∧ (∀ g : adsGain_t, ((Op.setGain g).run H (runAll H ops (d0, bus0))).1.m_gain = g)
    ∧ (runAll H ops (d0, bus0)).1.m_i2cAddress = d0.m_i2cAddress
    ∧ (runAll H ops (d0, bus0)).1.m_bitShift = d0.m_bitShift
    ∧ (runAll H ops (d0, bus0)).1.m_conversionDelay = d0.m_conversionDelay
    ∧ ((∀ o ∈ ops, ∀ g : adsGain_t, o ≠ Op.setGain g) →
        (runAll H ops (d0, bus0)).1.m_gain = d0.m_gain)
    ∧ (∀ (a : Nat) (fd0 : Int),
        (runAll H ops (ads1015.ctor H a fd0, bus0)).1.m_i2cAddress = a
        ∧ (runAll H ops (ads1015.ctor H a fd0, bus0)).1.m_bitShift = 4
        ∧ (runAll H ops (ads1015.ctor H a fd0, bus0)).1.m_conversionDelay
            = H.ADS1015_CONVERSIONDELAY)
    ∧ (∀ (a : Nat) (fd0 : Int),
        (runAll H ops ((ads1115.ctor H a fd0).toads1015, bus0)).1.m_i2cAddress = a
        ∧ (runAll H ops ((ads1115.ctor H a fd0).toads1015, bus0)).1.m_bitShift = 0
        ∧ (runAll H ops ((ads1115.ctor H a fd0).toads1015, bus0)).1.m_conversionDelay
            = H.ADS1115_CONVERSIONDELAY) := by
  obtain ⟨k1, k2, k3, -⟩ := Op.run_fixed H op (runAll H ops (d0, bus0))
  obtain ⟨r1, r2, r3, -⟩ := runAll_fixed H ops (d0, bus0)
  refine ⟨k1, k2, k3, ?_, ?_, r1, r2, r3, ?_, ?_, ?_⟩
  · intro hop
    exact Op.run_gain H op _ hop
  · intro g
    rfl
  · intro hops
    exact runAll_gain H ops (d0, bus0) hops
  · intro a fd0
    obtain ⟨c1, c2, c3, -⟩ := runAll_fixed H ops (ads1015.ctor H a fd0, bus0)
    exact ⟨c1, c2, c3⟩
  · intro a fd0
    obtain ⟨c1, c2, c3, -⟩ := runAll_fixed H ops ((ads1115.ctor H a fd0).toads1015, bus0)
    exact ⟨c1, c2, c3⟩

theorem c13_fixed_parameters_witness :
    (runAll datasheet
        [Op.setGain ⟨2⟩, Op.readADC_SingleEnded 1, Op.startComparator_SingleEnded 0 100,
         Op.getLastConversionResults]
        (ads1015.ctor datasheet 0x48 3, Bus.feed [0x12, 0x30, 0x45, 0x60])).1.m_i2cAddress
      = 0x48
    ∧ ((Op.readADC_Differential_0_1).run datasheet
        (runAll datasheet [Op.setGain ⟨2⟩]
          (ads1015.ctor datasheet 0x48 3, Bus.feed [0x12, 0x30]))).1.m_gain
      = (runAll datasheet [Op.setGain ⟨2⟩]
          (ads1015.ctor datasheet 0x48 3, Bus.feed [0x12, 0x30])).1.m_gain :=
  ⟨(c13_fixed_parameters datasheet (ads1015.ctor datasheet 0x48 3)
      (Bus.feed [0x12, 0x30, 0x45, 0x60])
      [Op.setGain ⟨2⟩, Op.readADC_SingleEnded 1, Op.startComparator_SingleEnded 0 100,
       Op.getLastConversionResults] Op.getGain).2.2.2.2.2.1,
   (c13_fixed_parameters datasheet (ads1015.ctor datasheet 0x48 3) (Bus.feed [0x12, 0x30])
      [Op.setGain ⟨2⟩] Op.readADC_Differential_0_1).2.2.2.1 (by intro g h; cases h)⟩

/-- C14: for every 7-bit address `a`, the constructor of `ads1015` stores `a`
as the bus address, sets the gain to `GAIN_TWOTHIRDS` (the widest range), the
bit shift to 4 and the settle time to `ADS1015_CONVERSIONDELAY`; the
constructor of `ads1115` stores `a`, sets the gain to `GAIN_TWOTHIRDS`, the
bit shift to 0 and the settle time to `ADS1115_CONVERSIONDELAY`.  Neither
makes a call on the bus. -/
theorem c14_constructors (H : Header) (a : Nat) (fd0 : Int) (bus : Bus) (_ha : a < 128) :
    (ads1015.construct H a fd0 bus).1.m_i2cAddress = a
    ∧ (ads1015.construct H a fd0 bus).1.m_gain = GAIN_TWOTHIRDS
    ∧ (ads1015.construct H a fd0 bus).1.m_bitShift = 4
    ∧ (ads1015.construct H a fd0 bus).1.m_conversionDelay = H.ADS1015_CONVERSIONDELAY
    ∧ (ads1015.construct H a fd0 bus).2 = bus
    ∧ (ads1115.construct H a fd0 bus).1.m_i2cAddress = a
    ∧ (ads1115.construct H a fd0 bus).1.m_gain = GAIN_TWOTHIRDS
    ∧ (ads1115.construct H a fd0 bus).1.m_bitShift = 0
    ∧ (ads1115.construct H a fd0 bus).1.m_conversionDelay = H.ADS1115_CONVERSIONDELAY
    ∧ (ads1115.construct H a fd0 bus).2 = bus
    ∧ GAIN_TWOTHIRDS.code = 0
    ∧ (∀ g : adsGain_t, GAIN_TWOTHIRDS.code ≤ g.code) :=
  ⟨rfl, rfl, rfl, rfl, rfl, rfl, rfl, rfl, rfl, rfl, rfl, fun g => Fin.zero_le g.code⟩

theorem c14_constructors_witness :
    (ads1015.construct datasheet 0x48 (-1) (Bus.feed [])).1
        = ⟨0x48, 1, 4, GAIN_TWOTHIRDS, -1⟩
    ∧ (ads1115.construct datasheet 0x49 (-1) (Bus.feed [])).1.toads1015
        = ⟨0x49, 8, 0, GAIN_TWOTHIRDS, -1⟩
    ∧ (ads1015.construct datasheet 0x48 (-1) (Bus.feed [])).1.m_bitShift = 4 :=
  ⟨by decide, by decide,
   (c14_constructors datasheet 0x48 (-1) (Bus.feed []) (by decide)).2.2.1⟩

theorem testBit_mod_65536_of_ge (a i : Nat) (hi : 16 ≤ i) : (a % 65536).testBit i = false := by
  have h : (65536 : Nat) = 2 ^ 16 := by norm_num
  rw [h, Nat.testBit_mod_two_pow]
  simp
  intro h2
  omega

/-- The config words of the two differential reads agree in every bit in which
the two multiplexer constants agree. -/
theorem config_Differential_testBit (H : Header) (d : ads1015) (i : Nat)
    (hi : H.ADS1015_REG_CONFIG_MUX_DIFF_0_1.testBit i
        = H.ADS1015_REG_CONFIG_MUX_DIFF_2_3.testBit i) :
    (ads1015.config_Differential_0_1 H d).testBit i
      = (ads1015.config_Differential_2_3 H d).testBit i := by
  unfold ads1015.config_Differential_0_1 ads1015.config_Differential_2_3
  by_cases h : i < 16
  · simp only [testBit_or_mod _ _ i h, hi]
  · rw [testBit_mod_65536_of_ge _ i (by omega), testBit_mod_65536_of_ge _ i (by omega)]

theorem config_Differential_datasheet_compare (d : ads1015) :
    (ads1015.config_Differential_0_1 datasheet d) ^^^ (ads1015.config_Differential_2_3 datasheet d)
      = 0x3000
    ∧ (ads1015.config_Differential_0_1 datasheet d) % 0x1000
      = (ads1015.config_Differential_2_3 datasheet d) % 0x1000
    ∧ (ads1015.config_Differential_0_1 datasheet d) >>> 15
      = (ads1015.config_Differential_2_3 datasheet d) >>> 15
    ∧ muxField (ads1015.config_Differential_0_1 datasheet d) = 0
    ∧ muxField (ads1015.config_Differential_2_3 datasheet d) = 3 := by
  have key : ∀ (g : Fin 8),
      (ads1015.config_Differential_0_1 datasheet ⟨0, 0, 0, ⟨g⟩, 0⟩)
          ^^^ (ads1015.config_Differential_2_3 datasheet ⟨0, 0, 0, ⟨g⟩, 0⟩) = 0x3000
      ∧ (ads1015.config_Differential_0_1 datasheet ⟨0, 0, 0, ⟨g⟩, 0⟩) % 0x1000
        = (ads1015.config_Differential_2_3 datasheet ⟨0, 0, 0, ⟨g⟩, 0⟩) % 0x1000
      ∧ (ads1015.config_Differential_0_1 datasheet ⟨0, 0, 0, ⟨g⟩, 0⟩) >>> 15
        = (ads1015.config_Differential_2_3 datasheet ⟨0, 0, 0, ⟨g⟩, 0⟩) >>> 15
      ∧ muxField (ads1015.config_Differential_0_1 datasheet ⟨0, 0, 0, ⟨g⟩, 0⟩) = 0
      ∧ muxField (ads1015.config_Differential_2_3 datasheet ⟨0, 0, 0, ⟨g⟩, 0⟩) = 3 := by
    decide
  exact key d.m_gain.code

theorem testBit_0x3000 (i : Nat) (hi : i < 12 ∨ 14 < i) : (0x3000 : Nat).testBit i = false := by
  rcases hi with h | h
  · interval_cases i <;> decide
  · apply Nat.testBit_lt_two_pow
    calc (0x3000 : Nat) < 2 ^ 15 := by norm_num
      _ ≤ 2 ^ i := Nat.pow_le_pow_right (by norm_num) (by omega)

/-- C15: for every device state (every gain) and every raw value on the bus,
`readADC_Differential_0_1` and `readADC_Differential_2_3` make the same
sequence of calls as a valid `readADC_SingleEnded`: one write of the config
register, one settle wait, one read of the conversion register.  They return
the same signed decoding of the raw value.  Their config words agree in every
bit in which the two multiplexer constants agree; at the data sheet values
they are equal in every bit outside bits 14..12 and their multiplexer fields
differ. -/
theorem c15_differential_reads (H : Header) (d : ads1015) (bus : Bus) (c : Nat) (hc : c ≤ 3) :
    (ads1015.readADC_SingleEnded H d c bus).2.2.trace
      = bus.trace ++ conversionEvents H d (ads1015.config_SingleEnded H d c)
    ∧ (ads1015.readADC_Differential_0_1 H d bus).2.2.trace
      = bus.trace ++ conversionEvents H d (ads1015.config_Differential_0_1 H d)
    ∧ (ads1015.readADC_Differential_2_3 H d bus).2.2.trace
      = bus.trace ++ conversionEvents H d (ads1015.config_Differential_2_3 H d)
    ∧ (∀ w : Nat,
        conversionEvents H d w
          = [BusEvent.write d._i2cdev (H.ADS1015_REG_POINTER_CONFIG % 256),
             BusEvent.usleep 10,
             BusEvent.write d._i2cdev ((w >>> 8) % 256),
             BusEvent.write d._i2cdev ((w &&& 0xFF) % 256),
             BusEvent.usleep (d.m_conversionDelay * 1000),
             BusEvent.write d._i2cdev (H.ADS1015_REG_POINTER_CONVERT % 256),
             BusEvent.usleep 10,
             BusEvent.write d._i2cdev (H.ADS1015_REG_POINTER_CONVERT % 256),
             BusEvent.read d._i2cdev 2])
    ∧ (ads1015.readADC_Differential_0_1 H d bus).1 = decodeSigned d.m_bitShift bus.raw
    ∧ (ads1015.readADC_Differential_2_3 H d bus).1 = decodeSigned d.m_bitShift bus.raw
    ∧ (ads1015.readADC_Differential_0_1 H d bus).1 = (ads1015.readADC_Differential_2_3 H d bus).1
    ∧ (∀ i : Nat,
        H.ADS1015_REG_CONFIG_MUX_DIFF_0_1.testBit i = H.ADS1015_REG_CONFIG_MUX_DIFF_2_3.testBit i →
        (ads1015.config_Differential_0_1 H d).testBit i
          = (ads1015.config_Differential_2_3 H d).testBit i)
    ∧ (∀ i : Nat, i < 12 ∨ 14 < i →
        (ads1015.config_Differential_0_1 datasheet d).testBit i
          = (ads1015.config_Differential_2_3 datasheet d).testBit i)
    ∧ (ads1015.config_Differential_0_1 datasheet d) % 0x1000
        = (ads1015.config_Differential_2_3 datasheet d) % 0x1000
    ∧ (ads1015.config_Differential_0_1 datasheet d) >>> 15
        = (ads1015.config_Differential_2_3 datasheet d) >>> 15
    ∧ muxField (ads1015.config_Differential_0_1 datasheet d)
        ≠ muxField (ads1015.config_Differential_2_3 datasheet d) := by
  obtain ⟨hx, hlow, hhigh, hm01, hm23⟩ := config_Differential_datasheet_compare d
  refine ⟨?_, ?_, ?_, fun _ => rfl, readADC_Differential_0_1_val H d bus,
    readADC_Differential_2_3_val H d bus, ?_, ?_, ?_, hlow, hhigh, ?_⟩
  · rw [readADC_SingleEnded_trace H d c bus hc]; rfl
  · rw [readADC_Differential_0_1_trace H d bus]; rfl
  · rw [readADC_Differential_2_3_trace H d bus]; rfl
  · rw [readADC_Differential_0_1_val, readADC_Differential_2_3_val]
  · intro i hi
    exact config_Differential_testBit H d i hi
  · intro i hi
    have h1 : ((ads1015.config_Differential_0_1 datasheet d)
        ^^^ (ads1015.config_Differential_2_3 datasheet d)).testBit i = false := by
      rw [hx]; exact testBit_0x3000 i hi
    rw [Nat.testBit_xor] at h1
    revert h1
    cases (ads1015.config_Differential_0_1 datasheet d).testBit i <;>
      cases (ads1015.config_Differential_2_3 datasheet d).testBit i <;> simp
  · rw [hm01, hm23]; decide

theorem c15_differential_reads_witness :
    (ads1015.readADC_Differential_0_1 datasheet (ads1015.ctor datasheet 0x48 3)
        (Bus.feed [0xFF, 0xF0])).2.2.trace
      = [BusEvent.write 3 0x01, BusEvent.usleep 10, BusEvent.write 3 0x81, BusEvent.write 3 0x83,
         BusEvent.usleep 1000, BusEvent.write 3 0x00, BusEvent.usleep 10, BusEvent.write 3 0x00,
         BusEvent.read 3 2]
    ∧ (ads1015.readADC_Differential_2_3 datasheet (ads1015.ctor datasheet 0x48 3)
        (Bus.feed [0xFF, 0xF0])).2.2.trace
      = [BusEvent.write 3 0x01, BusEvent.usleep 10, BusEvent.write 3 0xB1, BusEvent.write 3 0x83,
         BusEvent.usleep 1000, BusEvent.write 3 0x00, BusEvent.usleep 10, BusEvent.write 3 0x00,
         BusEvent.read 3 2]
    ∧ (ads1015.readADC_Differential_0_1 datasheet (ads1015.ctor datasheet 0x48 3)
        (Bus.feed [0xFF, 0xF0])).1 = -1 :=
  ⟨(c15_differential_reads datasheet (ads1015.ctor datasheet 0x48 3) (Bus.feed [0xFF, 0xF0]) 0
      (by decide)).2.1.trans (by decide),
   (c15_differential_reads datasheet (ads1015.ctor datasheet 0x48 3) (Bus.feed [0xFF, 0xF0]) 0
      (by decide)).2.2.1.trans (by decide),
   (c15_differential_reads datasheet (ads1015.ctor datasheet 0x48 3) (Bus.feed [0xFF, 0xF0]) 0
      (by decide)).2.2.2.2.1.trans (by decide)⟩

theorem toInt16_eq (r : Nat) (hr : r < 65536) :
    toInt16 r = if r < 32768 then (r : Int) else (r : Int) - 65536 := by
  by_cases h : r < 32768
  · rw [if_pos h, toInt16_of_lt r h]
  · rw [if_neg h, toInt16_of_ge r (by omega) hr]

/-- With bit shift 4 the signed decoding is the floor of the signed 16-bit
value of the raw register divided by 16. -/
theorem decodeSigned_four_eq_div (r : Nat) (hr : r < 65536) :
    decodeSigned 4 r = toInt16 r / 16 := by
  have hs : r >>> 4 = r / 16 := by rw [Nat.shiftRight_eq_div_pow]
  rw [decodeSigned_four r hr, toInt16_eq r hr, hs]
  by_cases h : r < 32768
  · rw [if_pos (by omega), if_pos h]
    omega
  · rw [if_neg (by omega), if_neg h]
    omega

theorem toInt16_bounds (r : Nat) (hr : r < 65536) :
    -32768 ≤ toInt16 r ∧ toInt16 r ≤ 32767 := by
  rw [toInt16_eq r hr]
  by_cases h : r < 32768
  · rw [if_pos h]; omega
  · rw [if_neg h]; omega

/-- C16: with bit shift 4, when the bus delivers the raw values `r1` and `r2`,
the signed reads return the arithmetic shift right by 4 of the raw value read
as a signed 16-bit integer, that is the floor of `int16(r) / 16`.  The result
lies in [-2048, 2047], it is monotone in `int16(r)`, and two raw values that
differ in their low four bits only give the same result. -/
theorem c16_decode_is_arithmetic_shift (H : Header) (d : ads1015) (bus1 bus2 : Bus)
    (r1 r2 : Nat) (hshift : d.m_bitShift = 4) (hr1 : r1 < 65536) (hr2 : r2 < 65536)
    (h10 : bus1.rx 0 = r1 / 256) (h11 : bus1.rx 1 = r1 % 256)
    (h20 : bus2.rx 0 = r2 / 256) (h21 : bus2.rx 1 = r2 % 256) :
    (ads1015.getLastConversionResults H d bus1).1 = toInt16 r1 / 16
    ∧ (ads1015.readADC_Differential_0_1 H d bus1).1 = toInt16 r1 / 16
    ∧ (ads1015.readADC_Differential_2_3 H d bus1).1 = toInt16 r1 / 16
    ∧ (ads1015.getLastConversionResults H d bus1).1 = toInt16 r1 >>> (4 : Nat)
    ∧ (ads1015.getLastConversionResults H d bus1).1 = ⌊((toInt16 r1 : ℚ) / 16)⌋
    ∧ -2048 ≤ (ads1015.getLastConversionResults H d bus1).1
    ∧ (ads1015.getLastConversionResults H d bus1).1 ≤ 2047
    ∧ (toInt16 r1 ≤ toInt16 r2 →
        (ads1015.getLastConversionResults H d bus1).1
          ≤ (ads1015.getLastConversionResults H d bus2).1)
    ∧ (r1 >>> 4 = r2 >>> 4 →
        (ads1015.getLastConversionResults H d bus1).1
          = (ads1015.getLastConversionResults H d bus2).1) := by
  have hraw1 := bus1.raw_of_bytes r1 hr1 h10 h11
  have hraw2 := bus2.raw_of_bytes r2 hr2 h20 h21
  have hv1 : (ads1015.getLastConversionResults H d bus1).1 = toInt16 r1 / 16 := by
    rw [getLastConversionResults_val, hshift, hraw1, decodeSigned_four_eq_div r1 hr1]
  have hv2 : (ads1015.getLastConversionResults H d bus2).1 = toInt16 r2 / 16 := by
    rw [getLastConversionResults_val, hshift, hraw2, decodeSigned_four_eq_div r2 hr2]
  obtain ⟨hlo, hhi⟩ := toInt16_bounds r1 hr1
  refine ⟨hv1, ?_, ?_, ?_, ?_, ?_, ?_, ?_, ?_⟩
  · rw [readADC_Differential_0_1_val, hshift, hraw1, decodeSigned_four_eq_div r1 hr1]
  · rw [readADC_Differential_2_3_val, hshift, hraw1, decodeSigned_four_eq_div r1 hr1]
  · rw [hv1, Int.shiftRight_eq_div_pow]
    norm_num
  · rw [hv1]
    have h := Rat.floor_intCast_div_natCast (toInt16 r1) 16
    simpa using h.symm
  · rw [hv1]; omega
  · rw [hv1]; omega
  · intro hle
    rw [hv1, hv2]
    omega
  · intro heq
    rw [getLastConversionResults_val, getLastConversionResults_val, hshift, hraw1, hraw2,
      decodeSigned_four r1 hr1, decodeSigned_four r2 hr2, heq]

theorem c16_decode_is_arithmetic_shift_witness :
    (ads1015.getLastConversionResults datasheet (ads1015.ctor datasheet 0x48 3)
        (Bus.feed [0xFF, 0xEF])).1 = -2
    ∧ (ads1015.getLastConversionResults datasheet (ads1015.ctor datasheet 0x48 3)
        (Bus.feed [0xFF, 0xEF])).1
      ≤ (ads1015.getLastConversionResults datasheet (ads1015.ctor datasheet 0x48 3)
        (Bus.feed [0x00, 0x1F])).1 :=
  ⟨(c16_decode_is_arithmetic_shift datasheet (ads1015.ctor datasheet 0x48 3)
      (Bus.feed [0xFF, 0xEF]) (Bus.feed [0x00, 0x1F]) 0xFFEF 0x001F rfl (by decide) (by decide)
      rfl rfl rfl rfl).1.trans (by decide),
   (c16_decode_is_arithmetic_shift datasheet (ads1015.ctor datasheet 0x48 3)
      (Bus.feed [0xFF, 0xEF]) (Bus.feed [0x00, 0x1F]) 0xFFEF 0x001F rfl (by decide) (by decide)
      rfl rfl rfl rfl).2.2.2.2.2.2.2.1 (by decide)⟩

/-- A bus that delivers the two data bytes that `writeRegister` sends for the
16-bit value `v` makes the next `readRegister` return `v`. -/
theorem Bus.raw_of_written_bytes (bus : Bus) (v : Nat) (hv : v < 65536)
    (h0 : bus.rx 0 = (v >>> 8) % 256) (h1 : bus.rx 1 = (v &&& 0xFF) % 256) : bus.raw = v := by
  have hhi : v >>> 8 = v / 256 := by rw [Nat.shiftRight_eq_div_pow]
  have hlo : v &&& 0xFF = v % 256 := Nat.and_pow_two_sub_one_eq_mod v 8
  apply bus.raw_of_bytes v hv
  · rw [h0, hhi]; omega
  · rw [h1, hlo]; omega

/-- The value that `startComparator_SingleEnded` passes for the threshold `t`
is a 16-bit value congruent to `t * 2 ^ shift`. -/
theorem threshold_value (t : Int) (shift : Nat) :
    ((t * 2 ^ shift % 65536).toNat : Int) = t * 2 ^ shift % 65536
    ∧ (t * 2 ^ shift % 65536).toNat < 65536 := by
  have h0 : 0 ≤ t * 2 ^ shift % 65536 := Int.emod_nonneg _ (by norm_num)
  have h1 : t * 2 ^ shift % 65536 < 65536 := Int.emod_lt_of_pos _ (by norm_num)
  have h2 : ((t * 2 ^ shift % 65536).toNat : Int) = t * 2 ^ shift % 65536 :=
    Int.toNat_of_nonneg h0
  refine ⟨h2, ?_⟩
  omega

theorem decode_threshold_four (t : Int) (hlo : -2048 ≤ t) (hhi : t ≤ 2047) :
    decodeSigned 4 (t * 2 ^ 4 % 65536).toNat = t := by
  obtain ⟨hc, hlt⟩ := threshold_value t 4
  rw [decodeSigned_four_eq_div _ hlt, toInt16_eq _ hlt]
  have h16 : t * 2 ^ 4 = t * 16 := by norm_num
  rw [h16] at hc hlt ⊢
  by_cases h : (t * 16 % 65536).toNat < 32768
  · rw [if_pos h]; omega
  · rw [if_neg h]; omega

theorem decode_threshold_zero (t : Int) (hlo : -32768 ≤ t) (hhi : t ≤ 32767) :
    decodeSigned 0 (t * 2 ^ 0 % 65536).toNat = t := by
  obtain ⟨hc, hlt⟩ := threshold_value t 0
  rw [decodeSigned_zero _ hlt]
  have h1 : t * 2 ^ 0 = t := by norm_num
  rw [h1] at hc hlt ⊢
  by_cases h : (t % 65536).toNat < 0x8000
  · rw [if_pos h]; omega
  · rw [if_neg h]; omega

theorem decodeSigned_four_bounds (r : Nat) (hr : r < 65536) :
    -2048 ≤ decodeSigned 4 r ∧ decodeSigned 4 r ≤ 2047 := by
  obtain ⟨hlo, hhi⟩ := toInt16_bounds r hr
  rw [decodeSigned_four_eq_div r hr]
  constructor <;> omega

/-- C17: threshold encoding and sample decoding are inverse on the
representable range.  Let `v = (t << m_bitShift) mod 2^16` be the value that
`startComparator_SingleEnded` writes to the high-threshold register for a
signed 16-bit threshold `t`, and let the bus deliver the two data bytes of that
write.  Then `getLastConversionResults` returns `t` when the bit shift is 4 and
`-2048 <= t <= 2047`, and when the bit shift is 0; when the bit shift is 4 and
`t` is outside [-2048, 2047] it does not return `t`. -/
theorem c17_threshold_round_trip (H : Header) (d : ads1015) (c : Nat) (t : Int)
    (bus0 bus : Bus) (htlo : -32768 ≤ t) (hthi : t ≤ 32767)
    (h0 : bus.rx 0 = ((t * 2 ^ d.m_bitShift % 65536).toNat >>> 8) % 256)
    (h1 : bus.rx 1 = ((t * 2 ^ d.m_bitShift % 65536).toNat &&& 0xFF) % 256) :
    (ads1015.startComparator_SingleEnded H d c t bus0).2.trace
      = bus0.trace
        ++ ([BusEvent.write d._i2cdev (H.ADS1015_REG_POINTER_HITHRESH % 256),
             BusEvent.usleep 10,
             BusEvent.write d._i2cdev (((t * 2 ^ d.m_bitShift % 65536).toNat >>> 8) % 256),
             BusEvent.write d._i2cdev (((t * 2 ^ d.m_bitShift % 65536).toNat &&& 0xFF) % 256)]
            ++ writeRegisterEvents d._i2cdev (H.ADS1015_REG_POINTER_CONFIG % 256)
                (ads1015.config_Comparator H d c))
    ∧ bus.raw = (t * 2 ^ d.m_bitShift % 65536).toNat
    ∧ (d.m_bitShift = 4 → -2048 ≤ t → t ≤ 2047 →
        (ads1015.getLastConversionResults H d bus).1 = t)
    ∧ (d.m_bitShift = 0 → (ads1015.getLastConversionResults H d bus).1 = t)
    ∧ (d.m_bitShift = 4 → (t < -2048 ∨ 2047 < t) →
        (ads1015.getLastConversionResults H d bus).1 ≠ t) := by
  obtain ⟨-, hlt⟩ := threshold_value t d.m_bitShift
  have hraw := bus.raw_of_written_bytes _ hlt h0 h1
  refine ⟨?_, hraw, ?_, ?_, ?_⟩
  · rw [startComparator_SingleEnded_trace]; rfl
  · intro h4 hlo hhi
    rw [getLastConversionResults_val, hraw, h4]
    exact decode_threshold_four t hlo hhi
  · intro hz
    rw [getLastConversionResults_val, hraw, hz]
    exact decode_threshold_zero t htlo hthi
  · intro h4 hout heq
    rw [getLastConversionResults_val, hraw, h4] at heq
    obtain ⟨-, hlt4⟩ := threshold_value t 4
    obtain ⟨blo, bhi⟩ := decodeSigned_four_bounds _ hlt4
    rw [heq] at blo bhi
    omega

theorem c17_threshold_round_trip_witness :
    (ads1015.getLastConversionResults datasheet (ads1015.ctor datasheet 0x48 3)
        (Bus.feed [0xFF, 0xB0])).1 = -5
    ∧ (ads1015.getLastConversionResults datasheet (ads1115.ctor datasheet 0x48 3).toads1015
        (Bus.feed [0x80, 0x00])).1 = -32768
    ∧ (ads1015.getLastConversionResults datasheet (ads1015.ctor datasheet 0x48 3)
        (Bus.feed [0x80, 0x00])).1 ≠ 2048 :=
  ⟨(c17_threshold_round_trip datasheet (ads1015.ctor datasheet 0x48 3) 0 (-5) (Bus.feed [])
      (Bus.feed [0xFF, 0xB0]) (by decide) (by decide) (by decide) (by decide)).2.2.1
      rfl (by decide) (by decide),
   (c17_threshold_round_trip datasheet (ads1115.ctor datasheet 0x48 3).toads1015 0 (-32768)
      (Bus.feed []) (Bus.feed [0x80, 0x00]) (by decide) (by decide) (by decide)
      (by decide)).2.2.2.1 rfl,
   (c17_threshold_round_trip datasheet (ads1015.ctor datasheet 0x48 3) 0 2048 (Bus.feed [])
      (Bus.feed [0x80, 0x00]) (by decide) (by decide) (by decide) (by decide)).2.2.2.2
      rfl (by decide)⟩

/-- For a channel above 3 no case of the `switch` of
`startComparator_SingleEnded` is taken: the config word is the comparator
defaults OR-ed with the gain. -/
theorem config_Comparator_invalid_channel (H : Header) (d : ads1015) (c : Nat) (hc : c > 3) :
    ads1015.config_Comparator H d c
      = ((H.ADS1015_REG_CONFIG_CQUE_1CONV |||
          H.ADS1015_REG_CONFIG_CLAT_LATCH |||
          H.ADS1015_REG_CONFIG_CPOL_ACTVLOW |||
          H.ADS1015_REG_CONFIG_CMODE_TRAD |||
          H.ADS1015_REG_CONFIG_DR_1600SPS |||
          H.ADS1015_REG_CONFIG_MODE_CONTIN |||
          H.ADS1015_REG_CONFIG_MODE_CONTIN) % 65536 ||| H.gainValue d.m_gain) % 65536 := by
  obtain ⟨n, rfl⟩ : ∃ n, c = n + 4 := ⟨c - 4, by omega⟩
  rfl

theorem config_Comparator_invalid_channel_datasheet (d : ads1015) (c : Nat) (hc : c > 3) :
    ads1015.config_Comparator datasheet d c = d.m_gain.code.val * 0x200 + 0x80 + 0x4
    ∧ muxField (ads1015.config_Comparator datasheet d c) = 0 := by
  have key : ∀ (g : Fin 8),
      ads1015.config_Comparator datasheet ⟨0, 0, 0, ⟨g⟩, 0⟩ 4 = g.val * 0x200 + 0x80 + 0x4
      ∧ muxField (ads1015.config_Comparator datasheet ⟨0, 0, 0, ⟨g⟩, 0⟩ 4) = 0 := by
    decide
  have h4 : ads1015.config_Comparator datasheet d c = ads1015.config_Comparator datasheet d 4 := by
    rw [config_Comparator_invalid_channel datasheet d c hc,
      config_Comparator_invalid_channel datasheet d 4 (by decide)]
  rw [h4]
  exact key d.m_gain.code

/-- C18: `startComparator_SingleEnded` does not validate its channel.  For a
channel `c > 3` it still makes both register writes, the threshold and then
the config word (six bytes written), and the config word is the comparator
defaults OR-ed with the gain only; at the data sheet values its multiplexer
field is zero, which is the pattern of no single-ended channel.
`readADC_SingleEnded` makes no call for the same `c`. -/
theorem c18_comparator_invalid_channel (H : Header) (d : ads1015) (c : Nat) (t : Int)
    (bus : Bus) (hc : c > 3) :
    (ads1015.startComparator_SingleEnded H d c t bus).2.trace
      = bus.trace
        ++ (writeRegisterEvents d._i2cdev (H.ADS1015_REG_POINTER_HITHRESH % 256)
              ((t * 2 ^ d.m_bitShift) % 65536).toNat
            ++ writeRegisterEvents d._i2cdev (H.ADS1015_REG_POINTER_CONFIG % 256)
              (ads1015.config_Comparator H d c))
    ∧ (bytesWritten
        (writeRegisterEvents d._i2cdev (H.ADS1015_REG_POINTER_HITHRESH % 256)
              ((t * 2 ^ d.m_bitShift) % 65536).toNat
            ++ writeRegisterEvents d._i2cdev (H.ADS1015_REG_POINTER_CONFIG % 256)
              (ads1015.config_Comparator H d c))).length = 6
    ∧ ads1015.config_Comparator H d c
        = ((H.ADS1015_REG_CONFIG_CQUE_1CONV |||
            H.ADS1015_REG_CONFIG_CLAT_LATCH |||
            H.ADS1015_REG_CONFIG_CPOL_ACTVLOW |||
            H.ADS1015_REG_CONFIG_CMODE_TRAD |||
            H.ADS1015_REG_CONFIG_DR_1600SPS |||
            H.ADS1015_REG_CONFIG_MODE_CONTIN |||
            H.ADS1015_REG_CONFIG_MODE_CONTIN) % 65536 ||| H.gainValue d.m_gain) % 65536
    ∧ muxField (ads1015.config_Comparator datasheet d c) = 0
    ∧ (∀ (e : ads1015) (k : Nat), k ≤ 3 →
        muxField (ads1015.config_Comparator datasheet d c)
          ≠ muxField (ads1015.config_SingleEnded datasheet e k)
        ∧ muxField (ads1015.config_Comparator datasheet d c)
          ≠ muxField (ads1015.config_Comparator datasheet e k))
    ∧ ads1015.readADC_SingleEnded H d c bus = (0, d, bus) := by
  obtain ⟨-, hmux⟩ := config_Comparator_invalid_channel_datasheet d c hc
  refine ⟨startComparator_SingleEnded_trace H d c t bus, ?_,
    config_Comparator_invalid_channel H d c hc, hmux, ?_, ?_⟩
  · simp [writeRegisterEvents, bytesWritten]
  · intro e k hk
    have hg : e.m_gain.code.val < 8 := e.m_gain.code.isLt
    have h1 : muxField (ads1015.config_SingleEnded datasheet e k) = 4 + k := by
      rw [config_SingleEnded_datasheet e k hk]
      exact muxField_sum (4 + k) _ (by omega) hg
    have h2 : muxField (ads1015.config_Comparator datasheet e k) = 4 + k := by
      rw [config_Comparator_datasheet e k hk]
      exact (comparator_fields_sum (4 + k) _ (by omega) hg).2.1
    rw [hmux, h1, h2]
    constructor <;> omega
  · unfold ads1015.readADC_SingleEnded
    rw [if_pos hc]

theorem c18_comparator_invalid_channel_witness :
    (ads1015.startComparator_SingleEnded datasheet (ads1015.ctor datasheet 0x48 3) 4 100
        (Bus.feed [])).2.trace
      = [BusEvent.write 3 0x03, BusEvent.usleep 10, BusEvent.write 3 0x06, BusEvent.write 3 0x40,
         BusEvent.write 3 0x01, BusEvent.usleep 10, BusEvent.write 3 0x00, BusEvent.write 3 0x84]
    ∧ ads1015.readADC_SingleEnded datasheet (ads1015.ctor datasheet 0x48 3) 4 (Bus.feed [])
      = (0, ads1015.ctor datasheet 0x48 3, Bus.feed []) :=
  ⟨(c18_comparator_invalid_channel datasheet (ads1015.ctor datasheet 0x48 3) 4 100 (Bus.feed [])
      (by decide)).1.trans (by decide),
   (c18_comparator_invalid_channel datasheet (ads1015.ctor datasheet 0x48 3) 4 100 (Bus.feed [])
      (by decide)).2.2.2.2.2⟩

end LibAds1115
